import Mathlib

/-!
# Order-intake bot: dialogue engine, order store and admin handoff

A shallow embedding of `src/main.go`.

Modelling conventions.

* Go `string` is `String`; Go `int64` identities are `Int`.
* The order file `orders.json` is the field `World.orders`: reads and writes of
  the file succeed and the JSON encoding returns every record unchanged
  (the two `omitempty` fields are empty strings when absent).
* The registry `userStates` is a total map into `Option UserState`; `none`
  is the nil pointer a Go map returns for a missing key.
* Every `bot.Send` appends one `Chattable` to `World.sent`; the result of a
  send is discarded by the source.
* A Go panic (nil dereference, index out of range) is `Except.error`.
* The library methods `Message.IsCommand` / `Message.Command` are inputs:
  `Message.Command = none` when `IsCommand()` is false, and `some c` when it
  is true and `Command()` returns `c`.
-/

namespace Poizon

/-! ## Data model -/

/-- The Go struct `Order` (main.go, lines 21-34). -/
structure Order where
  UserID : Int := 0
  FullName : String := ""
  Username : String := ""
  Article : String := ""
  Size : String := ""
  Color : String := ""
  City : String := ""
  Delivery : String := ""
  PhotoFileID : String := ""
  Contact : String := ""
  Status : String := ""
  AdminMessage : String := ""
  deriving DecidableEq, Repr

/-- The Go struct `UserState` (main.go, lines 15-19). -/
structure UserState where
  Step : String := ""
  Order : Order := {}
  WaitingPhoto : Bool := false
  deriving DecidableEq, Repr

/-- Telegram user: the fields of `tgbotapi.User` the program reads. -/
structure User where
  ID : Int := 0
  UserName : String := ""
  FirstName : String := ""
  LastName : String := ""
  deriving DecidableEq, Repr

/-- One image variant of a photo message (`tgbotapi.PhotoSize`). -/
structure PhotoSize where
  FileID : String := ""
  Width : Nat := 0
  Height : Nat := 0
  deriving DecidableEq, Repr

/-- Inbound message: the fields of `tgbotapi.Message` the program reads.
`ChatID` is `message.Chat.ID`; `From` is a pointer the source tests against
nil; `Photo = none` is the nil slice. -/
structure Message where
  ChatID : Int := 0
  From : Option User := none
  Text : String := ""
  Command : Option String := none
  Photo : Option (List PhotoSize) := none
  deriving DecidableEq, Repr

/-- Button press: the fields of `tgbotapi.CallbackQuery` the program reads.
`Message` is the bot message the pressed button is attached to. -/
structure CallbackQuery where
  From : User := {}
  Message : Message := {}
  Data : String := ""
  deriving DecidableEq, Repr

/-- One element of the update stream: at most one of the two pointers the
dispatcher looks at is set. -/
structure Update where
  Message : Option Message := none
  CallbackQuery : Option CallbackQuery := none
  deriving DecidableEq, Repr

/-- One inline button: a label with either callback data or a URL. -/
structure Button where
  Text : String
  CallbackData : Option String := none
  URL : Option String := none
  deriving DecidableEq, Repr

/-- Inline keyboard: rows of buttons. -/
abbrev InlineKeyboardMarkup := List (List Button)

/-- An outbound request handed to `bot.Send`. -/
inductive Chattable where
  | message (ChatID : Int) (Text : String) (ReplyMarkup : Option InlineKeyboardMarkup)
  | photo (ChatID : Int) (FileID : String)
  deriving DecidableEq, Repr

/-- Runtime faults of the Go program. -/
inductive Fault where
  | nilDereference
  | indexOutOfRange
  deriving DecidableEq, Repr

/-- The mutable state of the process: registry, order file, and the log of
everything handed to `bot.Send`. -/
structure World where
  userStates : Int → Option UserState
  orders : List Order
  sent : List Chattable

/-- Registry assignment `userStates[k] = v` (and `delete` when `v = none`). -/
def World.setState (w : World) (k : Int) (v : Option UserState) : World :=
  { w with userStates := fun j => if j = k then v else w.userStates j }

/-- One call of `bot.Send`. -/
def World.send (w : World) (c : Chattable) : World :=
  { w with sent := w.sent ++ [c] }

/-- The administrator roster `adminIDs` (main.go, line 38). -/
def adminIDs : List Int := [1188378688, 1103525572, 993582884]

/-! ## String helpers of the Go standard library -/

/-- Decimal rendering of `fmt.Sprintf("%d", n)`. -/
def fmtInt (n : Int) : String :=
  if n < 0 then "-" ++ Nat.repr n.natAbs else Nat.repr n.natAbs

/-- The test `strings.HasPrefix(s, p)`. -/
def hasPrefix (s p : String) : Bool :=
  p.data.isPrefixOf s.data

/-- The function `strings.TrimPrefix(s, p)`. -/
def trimPrefix (s p : String) : String :=
  if hasPrefix s p then String.mk (s.data.drop p.data.length) else s

/-- Outcome of `strconv.ParseUint`. -/
inductive UintResult where
  | ok (n : Nat)
  | syntaxErr
  | rangeErr
  deriving DecidableEq, Repr

/-- Largest `uint64`. -/
def maxUint64 : Nat := 2 ^ 64 - 1

/-- The digit loop of `strconv.ParseUint(s, 10, 64)`: left to right, a
character that is not a decimal digit is a syntax error, an overflow of
`uint64` is a range error reported at once. -/
def parseUintLoop : List Char → Nat → UintResult
  | [], n => .ok n
  | c :: cs, n =>
    if c.isDigit then
      if n ≥ maxUint64 / 10 + 1 then .rangeErr
      else
        let n1 := n * 10 + (c.toNat - 48)
        if n1 > maxUint64 then .rangeErr else parseUintLoop cs n1
    else .syntaxErr

/-- The function `strconv.ParseUint(s, 10, 64)`. -/
def parseUint (s : List Char) : UintResult :=
  match s with
  | [] => .syntaxErr
  | _ => parseUintLoop s 0

/-- The value returned by `strconv.ParseInt(s, 10, 64)`, the error being
discarded as the source does (`userID, _ := ...`): `0` on a syntax error,
the nearest bound on a range error. -/
def parseInt (s : String) : Int :=
  match s.data with
  | [] => 0
  | c :: cs =>
    let neg := c = '-'
    let body := if c = '+' ∨ c = '-' then cs else c :: cs
    match parseUint body with
    | .syntaxErr => 0
    | .rangeErr => if neg then -(2 ^ 63 : Int) else (2 ^ 63 : Int) - 1
    | .ok un =>
      if ¬ neg ∧ un ≥ 2 ^ 63 then (2 ^ 63 : Int) - 1
      else if neg ∧ un > 2 ^ 63 then -(2 ^ 63 : Int)
      else if neg then -(un : Int) else (un : Int)

/-! ## Keyboards -/

/-- Keyboard of the welcome text (main.go, lines 227-234). -/
def startOrderKeyboard : InlineKeyboardMarkup :=
  [[{ Text := "📨 Оформить заказ", CallbackData := some "start_order" },
    { Text := "📖 Полный гайд", URL := some "https://dzen.ru/a/Z3qUVa602E7y-7zW" }]]

/-- Attach-photo / skip choice (main.go, lines 236-243). -/
def yesNoKeyboard : InlineKeyboardMarkup :=
  [[{ Text := "Да", CallbackData := some "yes_photo" },
    { Text := "Пропустить", CallbackData := some "skip_photo" }]]

/-- Main menu (main.go, lines 310-325). -/
def menuKeyboard : InlineKeyboardMarkup :=
  [[{ Text := "📨 Оформить заказ", CallbackData := some "start_order" }],
   [{ Text := "📦 Мои заказы", CallbackData := some "myorders" }],
   [{ Text := "💬 Написать нам", CallbackData := some "contact_admins" }],
   [{ Text := "📖 Полный гайд", URL := some "https://dzen.ru/a/Z3qUVa602E7y-7zW" }]]

/-- Send-price / reject choice for one owner (main.go, lines 337-344). -/
def adminActionKeyboard (userID : Int) : InlineKeyboardMarkup :=
  [[{ Text := "✅ Отправить цену", CallbackData := some ("admin_price:" ++ fmtInt userID) },
    { Text := "❌ Отклонить", CallbackData := some ("admin_reject:" ++ fmtInt userID) }]]

/-- Confirm / decline choice (main.go, lines 365-372). -/
def userConfirmKeyboard : InlineKeyboardMarkup :=
  [[{ Text := "✅ Подтвердить", CallbackData := some "user_accept" },
    { Text := "❌ Отказаться", CallbackData := some "user_decline" }]]

/-! ## Order store -/

/-- The function `saveOrder` (main.go, lines 245-250): append and write back. -/
def saveOrder (w : World) (order : Order) : World :=
  { w with orders := w.orders ++ [order] }

/-- The record written by the loop body of `updateOrderStatus` for a record
`o` that passes the test of line 349 (main.go, lines 350-353). -/
def markOrder (status adminMsg : String) (o : Order) : Order :=
  if adminMsg ≠ "" then { o with Status := status, AdminMessage := adminMsg }
  else { o with Status := status }

/-- Iteration `i` of the loop of `updateOrderStatus` (main.go, lines 348-355):
`o` is a copy of `orders[i]`, and only `orders[i]` is written. -/
def updateAt (userID : Int) (status adminMsg : String) (orders : List Order) (i : Nat) :
    List Order :=
  match orders[i]? with
  | none => orders
  | some o =>
    if o.UserID = userID ∧ o.Status = "pending" then orders.set i (markOrder status adminMsg o)
    else orders

/-- The loop of `updateOrderStatus` (main.go, lines 347-355) over the indices
of the loaded slice. -/
def updateOrders (orders : List Order) (userID : Int) (status adminMsg : String) :
    List Order :=
  (List.range orders.length).foldl (updateAt userID status adminMsg) orders

/-- The function `updateOrderStatus` (main.go, lines 346-363). The message
built in the last branch is never handed to `bot.Send`, so nothing is sent. -/
def updateOrderStatus (w : World) (userID : Int) (status adminMsg : String) : World :=
  { w with orders := updateOrders w.orders userID status adminMsg }

/-! ## Outbound texts -/

/-- The function `sendWelcome` (main.go, lines 220-225). -/
def sendWelcome (w : World) (chatID : Int) : World :=
  w.send (.message chatID
    "Привет!\nИнструкция к оформлению товара:\n1. Включи VPN\n2. Зайди в Poizon\n3. Найди товар и скопируй артикул\n4. Укажи размеры и доставку\n5. Мы пришлём цену и варианты"
    (some startOrderKeyboard))

/-- The function `sendMenu` (main.go, lines 291-308). -/
def sendMenu (w : World) (chatID : Int) : World :=
  let hasOrders := w.orders.any (fun o => decide (o.UserID = chatID))
  if hasOrders then
    w.send (.message chatID
      "👋 Снова привет!\nТы можешь:\n- 📨 Оформить новый заказ\n- 📦 Посмотреть текущие\n- 💬 Написать нам\n- 📖 Полный гайд"
      (some menuKeyboard))
  else sendWelcome w chatID

/-- One entry of the my-orders summary: the `Sprintf` of main.go, line 266. -/
def formatOrder (o : Order) : String :=
  "Товар: " ++ o.Article ++ "\nРазмер: " ++ o.Size ++ "\nЦвет: " ++ o.Color ++
    "\nГород: " ++ o.City ++ "\nСтатус: " ++ o.Status ++ "\n---\n"

/-- The fixed text sent when the summary is empty (main.go, line 270). -/
def noOrdersText : String := "У вас нет заказов."

/-- The loop of `sendMyOrders` (main.go, lines 263-268): the contents of the
string builder after the scan of the store. -/
def myOrdersBuilder (orders : List Order) (chatID : Int) (username : String) : String :=
  orders.foldl
    (fun sb o => if o.UserID = chatID ∨ o.Username = username then sb ++ formatOrder o else sb)
    ""

/-- The text sent by `sendMyOrders` (main.go, lines 262-272). -/
def myOrdersText (orders : List Order) (chatID : Int) (username : String) : String :=
  let sb := myOrdersBuilder orders chatID username
  if sb.utf8ByteSize = 0 then sb ++ noOrdersText else sb

/-- The function `sendMyOrders` (main.go, lines 261-274). -/
def sendMyOrders (w : World) (chatID : Int) (username : String) : World :=
  w.send (.message chatID (myOrdersText w.orders chatID username) none)

/-- The summary text of `notifyAdmins` (main.go, lines 278-279). -/
def adminSummary (order : Order) : String :=
  "Новая заявка!\nИмя: " ++ order.FullName ++ "\nUsername: @" ++ order.Username ++
    "\nАртикул: " ++ order.Article ++ "\nРазмер: " ++ order.Size ++ "\nЦвет: " ++ order.Color ++
    "\nГород: " ++ order.City ++ "\nДоставка: " ++ order.Delivery ++ "\nКонтакт: " ++ order.Contact

/-- Loop body of `notifyAdmins` for one administrator (main.go, lines 278-286). -/
def notifyAdmin (order : Order) (w : World) (adminID : Int) : World :=
  let w1 := w.send (.message adminID (adminSummary order) (some (adminActionKeyboard order.UserID)))
  if order.PhotoFileID ≠ "" then w1.send (.photo adminID order.PhotoFileID) else w1

/-- The function `notifyAdmins` (main.go, lines 276-288). -/
def notifyAdmins (w : World) (order : Order) : World :=
  adminIDs.foldl (notifyAdmin order) w

/-- The function `sendContactAdmins` (main.go, lines 327-335). -/
def sendContactAdmins (w : World) (chatID : Int) : World :=
  let sb := adminIDs.foldl (fun sb id => sb ++ ("- @admin" ++ fmtInt id ++ "\n"))
    "Связаться с админами:\n"
  w.send (.message chatID sb none)

/-! ## Dialogue engine -/

/-- Prompt for the contact step (main.go, lines 95 and 185). -/
def contactPrompt : String := "☎️ Укажи контакт для связи (Имя и Telegram или номер):"

/-- The draft as stamped at the `contact` step (main.go, lines 140-146). -/
def stampOrder (draft : Order) (chatID : Int) (message : Message) : Order :=
  let o := { draft with Contact := message.Text, UserID := chatID }
  let o :=
    match message.From with
    | some sender =>
      { o with Username := sender.UserName,
               FullName := sender.FirstName ++ " " ++ sender.LastName }
    | none => o
  { o with Status := "pending" }

/-- The `switch state.Step` of `handleMessage` (main.go, lines 100-154) for an
actor whose registry entry is `state`. -/
def stepMessage (w : World) (chatID : Int) (state : UserState) (message : Message) : World :=
  match state.Step with
  | "menu" => sendMenu w chatID
  | "welcome" => sendWelcome w chatID
  | "start_order" =>
    (w.send (.message chatID "🔢 Введи артикул товара:" none)).setState chatID
      (some { state with Step := "article" })
  | "article" =>
    (w.send (.message chatID "📏 Укажи размер (EU/US/CN):" none)).setState chatID
      (some { state with Order := { state.Order with Article := message.Text }, Step := "size" })
  | "size" =>
    (w.send (.message chatID "🎨 Укажи цвет/модель (если есть варианты, иначе напиши '-'):"
      none)).setState chatID
      (some { state with Order := { state.Order with Size := message.Text }, Step := "color" })
  | "color" =>
    (w.send (.message chatID "📍 Укажи город:" none)).setState chatID
      (some { state with Order := { state.Order with Color := message.Text }, Step := "city" })
  | "city" =>
    (w.send (.message chatID "🚚 Укажи способ доставки:" none)).setState chatID
      (some { state with Order := { state.Order with City := message.Text }, Step := "delivery" })
  | "delivery" =>
    (w.send (.message chatID "Хочешь прикрепить скрин товара?" (some yesNoKeyboard))).setState
      chatID
      (some { state with Order := { state.Order with Delivery := message.Text },
                         Step := "want_photo" })
  | "want_photo" =>
    w.send (.message chatID "Пожалуйста, выбери вариант с помощью кнопок ниже."
      (some yesNoKeyboard))
  | "contact" =>
    let order := stampOrder state.Order chatID message
    let w1 := saveOrder w order
    let w2 := w1.send (.message chatID
      "🎉 Спасибо! Мы проверим товар и пришлём тебе:\n- Итоговую цену\n- Срок доставки\n- Способы оплаты\nОбычно это занимает 10–20 минут."
      none)
    let w3 := notifyAdmins w2 order
    w3.setState chatID none
  | "await_admin_price" => w
  | _ => w

/-- The function `handleMessage` (main.go, lines 74-155). The registry entry
is a pointer: it is dereferenced by the `start` command and by everything
after the command switch, not by the `myorders` command. -/
def handleMessage (w : World) (message : Message) : Except Fault World :=
  let chatID := message.ChatID
  if message.Command = some "start" then
    match w.userStates chatID with
    | none => .error .nilDereference
    | some state =>
      .ok (sendMenu (w.setState chatID (some { state with Step := "menu" })) chatID)
  else if message.Command = some "myorders" then
    match message.From with
    | none => .error .nilDereference
    | some sender => .ok (sendMyOrders w chatID sender.UserName)
  else
    match w.userStates chatID with
    | none => .error .nilDereference
    | some state =>
      match (if state.WaitingPhoto then message.Photo else none) with
      | some photos =>
        match photos.getLast? with
        | none => .error .indexOutOfRange
        | some photo =>
          .ok ((w.setState chatID
            (some { state with Order := { state.Order with PhotoFileID := photo.FileID },
                               WaitingPhoto := false, Step := "contact" })).send
            (.message chatID contactPrompt none))
      | none => .ok (stepMessage w chatID state message)

/-- The function `handleCallback` (main.go, lines 157-218). -/
def handleCallback (w : World) (cb : CallbackQuery) : Except Fault World :=
  let chatID := cb.Message.ChatID
  let data := cb.Data
  match w.userStates chatID with
  | none => .error .nilDereference
  | some state =>
    match state.Step with
    | "menu" =>
      if data = "start_order" then
        handleMessage (w.setState chatID (some { state with Step := "start_order" })) cb.Message
      else if data = "myorders" then .ok (sendMyOrders w chatID cb.From.UserName)
      else if data = "contact_admins" then .ok (sendContactAdmins w chatID)
      else .ok w
    | "welcome" =>
      if data = "start_order" then
        handleMessage (w.setState chatID (some { state with Step := "start_order" })) cb.Message
      else .ok w
    | "want_photo" =>
      if data = "yes_photo" then
        .ok ((w.send (.message chatID "Пришли фото товара:" none)).setState chatID
          (some { state with WaitingPhoto := true, Step := "wait_photo_upload" }))
      else if data = "skip_photo" then
        .ok ((w.setState chatID (some { state with Step := "contact" })).send
          (.message chatID contactPrompt none))
      else .ok w
    | "wait_photo_upload" => .ok w
    | "admin_action" =>
      if hasPrefix data "admin_price:" then
        let userID := parseInt (trimPrefix data "admin_price:")
        let w1 := w.setState userID (some { Step := "await_admin_price" })
        let w2 := w1.send (.message cb.From.ID
          "Введите сообщение для пользователя (цена, сроки, оплата):" none)
        .ok (w2.setState cb.From.ID (some { Step := "send_price", Order := { UserID := userID } }))
      else if hasPrefix data "admin_reject:" then
        let userID := parseInt (trimPrefix data "admin_reject:")
        let w1 := updateOrderStatus w userID "rejected" ""
        .ok (w1.send (.message userID "❌ Ваш заказ отклонён администратором." none))
      else .ok w
    | "user_confirm" =>
      if data = "user_accept" then
        let w1 := updateOrderStatus w chatID "confirmed" ""
        .ok (w1.send (.message chatID
          "🚀 Заказ принят! Мы напишем тебе, как только товар будет на складе или в пути." none))
      else if data = "user_decline" then
        let w1 := updateOrderStatus w chatID "declined" ""
        .ok (w1.send (.message chatID "❌ Заказ отменён." none))
      else .ok w
    | _ => .ok w

/-- One iteration of the loop of `main` (main.go, lines 61-71). -/
def dispatch (w : World) (update : Update) : Except Fault World :=
  match update.Message with
  | some message =>
    let chatID := message.ChatID
    let w1 :=
      match w.userStates chatID with
      | none => w.setState chatID (some { Step := "menu" })
      | some _ => w
    handleMessage w1 message
  | none =>
    match update.CallbackQuery with
    | some cb => handleCallback w cb
    | none => .ok w

/-- The loop of `main` over a finite sequence of updates; a fault ends the
process. -/
def runUpdates (w : World) : List Update → Except Fault World
  | [] => .ok w
  | u :: us =>
    match dispatch w u with
    | .error e => .error e
    | .ok w1 => runUpdates w1 us

/-- The state of a process that has just started with the order file
`orders`: empty registry, nothing sent. -/
def initWorld (orders : List Order) : World :=
  { userStates := fun _ => none, orders := orders, sent := [] }

/-! ## Vocabulary of the statements -/

/-- The update that carries the message `m`. -/
def msgUpdate (m : Message) : Update := { Message := some m }

/-- The update that carries the button press `cb`. -/
def pressUpdate (cb : CallbackQuery) : Update := { CallbackQuery := some cb }

/-- A message of chat `c` that is neither the `start` nor the `myorders`
command and carries no photo. -/
def PlainText (c : Int) (m : Message) : Prop :=
  m.ChatID = c ∧ m.Command ≠ some "start" ∧ m.Command ≠ some "myorders" ∧ m.Photo = none

/-- What the loop of `updateOrderStatus` does to one record. -/
def updateOne (userID : Int) (status adminMsg : String) (o : Order) : Order :=
  if o.UserID = userID ∧ o.Status = "pending" then markOrder status adminMsg o else o

/-- Written after the spec (4.3, `queryByOwnerOrHandle`): all records whose
owner is `ownerId` or whose handle is `handle`, in store order. -/
def queryByOwnerOrHandle (orders : List Order) (ownerId : Int) (handle : String) :
    List Order :=
  orders.filter (fun o => decide (o.UserID = ownerId ∨ o.Username = handle))

/-- Written after the spec (4.1, "my orders"): the entry of one record in the
summary, which names its article, size, colour, city and status, each on a
line of its own, and ends with a separator line. -/
def summaryEntry (o : Order) : String :=
  "Товар: " ++ o.Article ++ "\nРазмер: " ++ o.Size ++ "\nЦвет: " ++ o.Color ++
    "\nГород: " ++ o.City ++ "\nСтатус: " ++ o.Status ++ "\n---\n"

/-- Written after the spec (4.1, "my orders"): the concatenation of the
entries of the matching records, or the fixed no-orders text when there is
none. -/
def summaryText (orders : List Order) (ownerId : Int) (handle : String) : String :=
  match queryByOwnerOrHandle orders ownerId handle with
  | [] => "У вас нет заказов."
  | r :: rs => String.join ((r :: rs).map summaryEntry)

/-! ## Concrete actors and events -/

/-- A customer with chat id 42. -/
def ivan : User := { ID := 42, UserName := "ivan", FirstName := "Ivan", LastName := "Petrov" }

/-- The first administrator of the roster. -/
def admin : User := { ID := 1188378688, UserName := "boss", FirstName := "Ann", LastName := "Lee" }

/-- A text message sent by `sender` in the private chat with the bot. -/
def textOf (sender : User) (t : String) : Message :=
  { ChatID := sender.ID, From := some sender, Text := t }

/-- The command `/cmd` sent by `sender` in the private chat with the bot. -/
def commandOf (sender : User) (cmd : String) : Message :=
  { ChatID := sender.ID, From := some sender, Text := "/" ++ cmd, Command := some cmd }

/-- A photo message sent by `sender` with the given image variants. -/
def photoOf (sender : User) (variants : List PhotoSize) : Message :=
  { ChatID := sender.ID, From := some sender, Photo := some variants }

/-- A press by `sender` of a button with payload `d`, the button being
attached to a text message of the bot in the private chat. -/
def pressOf (sender : User) (d : String) : CallbackQuery :=
  { From := sender, Message := { ChatID := sender.ID }, Data := d }

/-- The dialogue of the spec's scenario, from the start-order button to the
contact text, with the skip-photo choice. -/
def orderDialogue (sender : User) : List Update :=
  [pressUpdate (pressOf sender "start_order"),
   msgUpdate (textOf sender "AB123"), msgUpdate (textOf sender "42"),
   msgUpdate (textOf sender "-"), msgUpdate (textOf sender "Moscow"),
   msgUpdate (textOf sender "courier"),
   pressUpdate (pressOf sender "skip_photo"),
   msgUpdate (textOf sender "@ivan")]

/-- A dialogue that attaches the photo `F1` and is then abandoned with
`/start` before the contact step. -/
def abandonedDialogue (sender : User) : List Update :=
  [msgUpdate (commandOf sender "start"),
   pressUpdate (pressOf sender "start_order"),
   msgUpdate (textOf sender "XY999"), msgUpdate (textOf sender "40"),
   msgUpdate (textOf sender "red"), msgUpdate (textOf sender "Kazan"),
   msgUpdate (textOf sender "post"),
   pressUpdate (pressOf sender "yes_photo"),
   msgUpdate (photoOf sender [{ FileID := "F1", Width := 90, Height := 90 }]),
   msgUpdate (commandOf sender "start")]

/-- The record the scenario's dialogue stores for customer 42. -/
def pendingOrder42 : Order :=
  { UserID := 42, FullName := "Ivan Petrov", Username := "ivan", Article := "AB123",
    Size := "42", Color := "-", City := "Moscow", Delivery := "courier",
    Contact := "@ivan", Status := "pending" }

/-- A world in which `actor` has the registry entry `st` and nobody else
has one. -/
def worldWith (orders : List Order) (actor : Int) (st : UserState) : World :=
  (initWorld orders).setState actor (some st)

/-- A pending order of another customer, who has no Telegram handle. -/
def order7 : Order :=
  { UserID := 7, FullName := "Olga Sidorova", Username := "", Article := "ZZ001",
    Size := "38", Color := "blue", City := "Omsk", Delivery := "post",
    Contact := "+70000000000", Status := "pending" }

/-- An order of another customer, recorded under the handle `ivan`. -/
def order8 : Order :=
  { UserID := 8, FullName := "Ivan Smirnov", Username := "ivan", Article := "QQ777",
    Size := "44", Color := "black", City := "Tula", Delivery := "courier",
    Contact := "@ivan", Status := "pending" }

/-- An actor state in the middle of a dialogue, waiting flag set. -/
def midDialogue : UserState :=
  { Step := "size", Order := { Article := "AB123", PhotoFileID := "F0" }, WaitingPhoto := true }

/-! ## Further scenarios and predicates -/

/-- Text of the re-prompt at the step `want_photo` (main.go, line 136). -/
def choosePrompt : String := "Пожалуйста, выбери вариант с помощью кнопок ниже."

/-- A dialogue in which the customer chooses to attach a photo and then
abandons it with `/start` before sending one. -/
def flagLeftSet (sender : User) : List Update :=
  [msgUpdate (commandOf sender "start"),
   pressUpdate (pressOf sender "start_order"),
   msgUpdate (textOf sender "XY999"), msgUpdate (textOf sender "40"),
   msgUpdate (textOf sender "red"), msgUpdate (textOf sender "Kazan"),
   msgUpdate (textOf sender "post"),
   pressUpdate (pressOf sender "yes_photo"),
   msgUpdate (commandOf sender "start")]

/-- The dialogue of the scenario up to the attach/skip choice. -/
def dialogueToChoice (sender : User) : List Update :=
  [pressUpdate (pressOf sender "start_order"),
   msgUpdate (textOf sender "AB123"), msgUpdate (textOf sender "42"),
   msgUpdate (textOf sender "-"), msgUpdate (textOf sender "Moscow"),
   msgUpdate (textOf sender "courier")]

/-- The registry entry after a photo with file id `f` has been consumed
(main.go, lines 92-94). -/
def withPhoto (st : UserState) (f : String) : UserState :=
  { st with Order := { st.Order with PhotoFileID := f }, WaitingPhoto := false,
            Step := "contact" }

/-- The steps of the customer dialogue that the handlers assign. -/
def customerSteps : List String :=
  ["menu", "start_order", "article", "size", "color", "city", "delivery", "want_photo",
   "wait_photo_upload", "contact"]

/-- A registry entry whose step is a customer step and which, when it awaits
a photo upload, has the waiting flag set. -/
def GoodState (st : UserState) : Prop :=
  st.Step ∈ customerSteps ∧ (st.Step = "wait_photo_upload" → st.WaitingPhoto = true)

/-- Every entry of the registry is a `GoodState`. -/
def GoodRegistry (w : World) : Prop :=
  ∀ (k : Int) (st : UserState), w.userStates k = some st → GoodState st

/-- Resolution of an image variant, in pixels. -/
def resolution (p : PhotoSize) : Nat := p.Width * p.Height

/-- Written after the spec (4.2, fan-out): the summary of a submitted order,
which names its display name, handle, article, size, colour, city, delivery
and contact, each on a line of its own under a heading. -/
def fanOutSummary (order : Order) : String :=
  "Новая заявка!\nИмя: " ++ order.FullName ++ "\nUsername: @" ++ order.Username ++
    "\nАртикул: " ++ order.Article ++ "\nРазмер: " ++ order.Size ++ "\nЦвет: " ++ order.Color ++
    "\nГород: " ++ order.City ++ "\nДоставка: " ++ order.Delivery ++ "\nКонтакт: " ++ order.Contact

/-- Written after the spec (4.2, fan-out): what one administrator receives for
a submitted order, the summary with the send-price/reject choice and, when
the order has a photo reference, the photo right after it. -/
def fanOutTo (order : Order) (adminID : Int) : List Chattable :=
  .message adminID (fanOutSummary order) (some (adminActionKeyboard order.UserID)) ::
    (if order.PhotoFileID ≠ "" then [.photo adminID order.PhotoFileID] else [])

/-- Two records that agree on the owner and on every field the dialogue
fills in; status and admin message may differ. -/
def SameDialogueFields (o o1 : Order) : Prop :=
  o1.UserID = o.UserID ∧ o1.FullName = o.FullName ∧ o1.Username = o.Username ∧
  o1.Article = o.Article ∧ o1.Size = o.Size ∧ o1.Color = o.Color ∧ o1.City = o.City ∧
  o1.Delivery = o.Delivery ∧ o1.PhotoFileID = o.PhotoFileID ∧ o1.Contact = o.Contact

/-- Text of the acknowledgement sent at the contact step (main.go, line 148). -/
def thanksText : String :=
  "🎉 Спасибо! Мы проверим товар и пришлём тебе:\n- Итоговую цену\n- Срок доставки\n- Способы оплаты\nОбычно это занимает 10–20 минут."

/-- The dialogue of a customer up to the yes choice: the actor then awaits
the photo upload. -/
def dialogueToUpload (sender : User) : List Update :=
  [msgUpdate (commandOf sender "start"),
   pressUpdate (pressOf sender "start_order"),
   msgUpdate (textOf sender "XY999"), msgUpdate (textOf sender "40"),
   msgUpdate (textOf sender "red"), msgUpdate (textOf sender "Kazan"),
   msgUpdate (textOf sender "post"),
   pressUpdate (pressOf sender "yes_photo")]

/-- A photo message whose variants are listed smallest first. -/
def photoAscending (sender : User) : Message :=
  photoOf sender [{ FileID := "FS", Width := 90, Height := 90 },
    { FileID := "FB", Width := 800, Height := 800 }]

/-- A photo message whose variants are listed largest first. -/
def photoDescending (sender : User) : Message :=
  photoOf sender [{ FileID := "FB", Width := 800, Height := 800 },
    { FileID := "FS", Width := 90, Height := 90 }]

/-- A registry entry that awaits the photo upload. -/
def awaitingPhoto : UserState := { Step := "wait_photo_upload", WaitingPhoto := true }

/-- Written after the spec (4.4): the edges of the order status diagram. -/
def StatusEdge (a b : String) : Prop :=
  (a = "pending" ∧ b = "price_sent") ∨ (a = "pending" ∧ b = "rejected") ∨
  (a = "price_sent" ∧ b = "confirmed") ∨ (a = "price_sent" ∧ b = "declined")

/-! # Theorems -/

/-! ## Registry, store and log projections -/

@[simp]
theorem setState_userStates_same (w : World) (k : Int) (v : Option UserState) :
    (w.setState k v).userStates k = v := by simp [World.setState]

@[simp]
theorem setState_orders (w : World) (k : Int) (v : Option UserState) :
    (w.setState k v).orders = w.orders := rfl

@[simp]
theorem setState_sent (w : World) (k : Int) (v : Option UserState) :
    (w.setState k v).sent = w.sent := rfl

@[simp]
theorem send_userStates (w : World) (x : Chattable) :
    (w.send x).userStates = w.userStates := rfl

@[simp]
theorem send_orders (w : World) (x : Chattable) :
    (w.send x).orders = w.orders := rfl

theorem handleMessage_plain (w : World) (c : Int) (st : UserState) (m : Message)
    (hst : w.userStates c = some st) (hm : PlainText c m) :
    handleMessage w m = .ok (stepMessage w c st m) := by
  obtain ⟨hc, h1, h2, h3⟩ := hm
  simp [handleMessage, hc, h1, h2, h3, hst]

theorem dispatch_plain (w : World) (c : Int) (st : UserState) (m : Message)
    (hst : w.userStates c = some st) (hm : PlainText c m) :
    dispatch w { Message := some m } = .ok (stepMessage w c st m) := by
  have hc := hm.1
  simp only [dispatch, hc, hst]
  exact handleMessage_plain w c st m hst hm


/-! ## The update loop is a pointwise map -/

theorem updateAt_length (u : Int) (s m : String) (os : List Order) (i : Nat) :
    (updateAt u s m os i).length = os.length := by
  unfold updateAt
  split
  · rfl
  · split <;> simp

theorem updateLoop_inv (u : Int) (s m : String) (orders : List Order) (k : Nat) :
    ((List.range k).foldl (updateAt u s m) orders).length = orders.length ∧
    ∀ i, ((List.range k).foldl (updateAt u s m) orders)[i]? =
      if i < k then (orders[i]?).map (updateOne u s m) else orders[i]? := by
  induction k with
  | zero => simp
  | succ k ih =>
    obtain ⟨hlen, hget⟩ := ih
    rw [List.range_succ, List.foldl_append]
    simp only [List.foldl_cons, List.foldl_nil]
    refine ⟨by rw [updateAt_length, hlen], fun i => ?_⟩
    generalize hos : (List.range k).foldl (updateAt u s m) orders = os at hlen hget
    have hk := hget k
    simp only [lt_irrefl, if_false] at hk
    unfold updateAt
    rw [hk]
    cases hok : orders[k]? with
    | none =>
      simp only
      rw [hget i]
      by_cases hik : i < k
      · simp [hik, Nat.lt_succ_of_lt hik]
      · by_cases hik2 : i = k
        · subst hik2; simp [hok]
        · have : ¬ i < k + 1 := by omega
          simp [hik, this]
    | some o =>
      simp only
      by_cases hm : o.UserID = u ∧ o.Status = "pending"
      · rw [if_pos hm, List.getElem?_set]
        by_cases hik2 : k = i
        · subst hik2
          have hlt : k < os.length := by
            rw [hlen]; exact (List.getElem?_eq_some_iff.mp hok).1
          simp [hlt, hok, updateOne, hm]
        · rw [if_neg hik2, hget i]
          by_cases hik : i < k
          · simp [hik, Nat.lt_succ_of_lt hik]
          · have : ¬ i < k + 1 := by omega
            simp [hik, this]
      · rw [if_neg hm, hget i]
        by_cases hik : i < k
        · simp [hik, Nat.lt_succ_of_lt hik]
        · by_cases hik2 : i = k
          · subst hik2; simp [hok, updateOne, hm]
          · have : ¬ i < k + 1 := by omega
            simp [hik, this]

theorem updateOrders_eq_map (orders : List Order) (u : Int) (s m : String) :
    updateOrders orders u s m = orders.map (updateOne u s m) := by
  apply List.ext_getElem?
  intro i
  rw [updateOrders, (updateLoop_inv u s m orders orders.length).2 i]
  by_cases h : i < orders.length
  · simp [h]
  · have h2 : orders[i]? = none := List.getElem?_eq_none (by omega)
    simp [h, h2]

theorem updateOne_other (u : Int) (s m : String) (o : Order)
    (h : ¬ (o.UserID = u ∧ o.Status = "pending")) : updateOne u s m o = o := by
  simp [updateOne, h]

/-! ## The my-orders text -/

theorem utf8ByteSize_eq_zero (s : String) : s.utf8ByteSize = 0 ↔ s = "" := by
  constructor
  · intro h
    cases s with
    | mk l =>
      cases l with
      | nil => rfl
      | cons c cs =>
        exfalso
        have hpos := Char.utf8Size_pos c
        simp only [String.utf8ByteSize, String.utf8ByteSize.go] at h
        omega
  · rintro rfl; rfl

theorem join_data (ss : List String) : (String.join ss).data = (ss.map String.data).flatten := by
  rw [String.join_eq]

theorem myOrdersLoop_data (c : Int) (h : String) (orders : List Order) (acc : String) :
    (orders.foldl
      (fun sb o => if o.UserID = c ∨ o.Username = h then sb ++ formatOrder o else sb) acc).data =
      acc.data ++ (((queryByOwnerOrHandle orders c h).map formatOrder).map String.data).flatten := by
  induction orders generalizing acc with
  | nil => simp [queryByOwnerOrHandle]
  | cons o os ih =>
    rw [List.foldl_cons, ih]
    by_cases hm : o.UserID = c ∨ o.Username = h
    · simp [queryByOwnerOrHandle, hm, List.filter_cons]
    · simp [queryByOwnerOrHandle, hm, List.filter_cons]

theorem myOrdersBuilder_eq (orders : List Order) (c : Int) (h : String) :
    myOrdersBuilder orders c h = String.join ((queryByOwnerOrHandle orders c h).map formatOrder) := by
  apply String.ext
  rw [myOrdersBuilder, myOrdersLoop_data, join_data]
  simp

theorem formatOrder_ne_empty (o : Order) : formatOrder o ≠ "" := by
  intro h
  have := congrArg String.length h
  simp only [formatOrder, String.length_append] at this
  have h5 : "\n---\n".length = 5 := by decide
  have h0 : "".length = 0 := rfl
  omega

theorem formatOrder_eq_summaryEntry : formatOrder = summaryEntry :=
  funext (fun _ => rfl)

theorem myOrdersText_eq (orders : List Order) (c : Int) (h : String) :
    myOrdersText orders c h = summaryText orders c h := by
  unfold myOrdersText summaryText
  rw [myOrdersBuilder_eq, ← formatOrder_eq_summaryEntry]
  cases hq : queryByOwnerOrHandle orders c h with
  | nil => simp [String.join, noOrdersText]; rfl
  | cons r rs =>
    have hne : String.join ((r :: rs).map formatOrder) ≠ "" := by
      intro h0
      have := congrArg String.data h0
      rw [join_data] at this
      simp at this
      exact formatOrder_ne_empty r (String.ext (by simpa using this.1))
    simp only [utf8ByteSize_eq_zero, hne, if_false]

theorem queryByOwnerOrHandle_idem (orders : List Order) (c : Int) (h : String) :
    queryByOwnerOrHandle (queryByOwnerOrHandle orders c h) c h =
      queryByOwnerOrHandle orders c h := by
  simp [queryByOwnerOrHandle, List.filter_filter]

/-! ## Single steps of the dialogue -/

theorem dispatch_msg_plain (w : World) (c : Int) (st : UserState) (m : Message)
    (hst : w.userStates c = some st) (hm : PlainText c m) :
    dispatch w (msgUpdate m) = .ok (stepMessage w c st m) := dispatch_plain w c st m hst hm

theorem runUpdates_cons_ok (w w1 : World) (u : Update) (us : List Update)
    (h : dispatch w u = .ok w1) : runUpdates w (u :: us) = runUpdates w1 us := by
  simp [runUpdates, h]

theorem dispatch_press (w : World) (cb : CallbackQuery) :
    dispatch w (pressUpdate cb) = handleCallback w cb := by
  simp [dispatch, pressUpdate]


@[simp]
theorem notifyAdmin_orders (o : Order) (w : World) (a : Int) :
    (notifyAdmin o w a).orders = w.orders := by
  unfold notifyAdmin; split <;> rfl

@[simp]
theorem notifyAdmin_userStates (o : Order) (w : World) (a : Int) :
    (notifyAdmin o w a).userStates = w.userStates := by
  unfold notifyAdmin; split <;> rfl

@[simp]
theorem notifyAdmins_orders (w : World) (o : Order) :
    (notifyAdmins w o).orders = w.orders := by
  simp [notifyAdmins, adminIDs]

@[simp]
theorem notifyAdmins_userStates (w : World) (o : Order) :
    (notifyAdmins w o).userStates = w.userStates := by
  simp [notifyAdmins, adminIDs]



theorem handleCallback_start_order (w : World) (c : Int) (st : UserState) (cb : CallbackQuery)
    (hst : w.userStates c = some st) (hmenu : st.Step = "menu")
    (hd : cb.Data = "start_order") (hp : PlainText c cb.Message) :
    ∃ w1, dispatch w (pressUpdate cb) = .ok w1 ∧
      w1.userStates c = some { st with Step := "article" } ∧ w1.orders = w.orders := by
  refine ⟨stepMessage (w.setState c (some { st with Step := "start_order" })) c
    { st with Step := "start_order" } cb.Message, ?_, ?_, ?_⟩
  · rw [dispatch_press]
    simp only [handleCallback, hp.1, hst, hmenu, hd]
    simp only [if_true]
    exact handleMessage_plain _ c { st with Step := "start_order" } _ (by simp) hp
  · simp [stepMessage]
  · simp [stepMessage]

theorem handleCallback_skip_photo (w : World) (c : Int) (st : UserState) (cb : CallbackQuery)
    (hst : w.userStates c = some st) (hstep : st.Step = "want_photo")
    (hd : cb.Data = "skip_photo") (hc : cb.Message.ChatID = c) :
    ∃ w1, dispatch w (pressUpdate cb) = .ok w1 ∧
      w1.userStates c = some { st with Step := "contact" } ∧ w1.orders = w.orders := by
  refine ⟨(w.setState c (some { st with Step := "contact" })).send
    (.message c contactPrompt none), ?_, ?_, ?_⟩
  · rw [dispatch_press]
    simp only [handleCallback, hc, hst, hstep, hd]
    simp
  · simp
  · simp

theorem dispatch_article (w : World) (c : Int) (st : UserState) (m : Message)
    (hst : w.userStates c = some st) (hstep : st.Step = "article") (hm : PlainText c m) :
    ∃ w1, dispatch w (msgUpdate m) = .ok w1 ∧
      w1.userStates c =
        some { st with Order := { st.Order with Article := m.Text }, Step := "size" } ∧
      w1.orders = w.orders :=
  ⟨stepMessage w c st m, dispatch_msg_plain w c st m hst hm,
    by simp [stepMessage, hstep], by simp [stepMessage, hstep]⟩

theorem dispatch_size (w : World) (c : Int) (st : UserState) (m : Message)
    (hst : w.userStates c = some st) (hstep : st.Step = "size") (hm : PlainText c m) :
    ∃ w1, dispatch w (msgUpdate m) = .ok w1 ∧
      w1.userStates c =
        some { st with Order := { st.Order with Size := m.Text }, Step := "color" } ∧
      w1.orders = w.orders :=
  ⟨stepMessage w c st m, dispatch_msg_plain w c st m hst hm,
    by simp [stepMessage, hstep], by simp [stepMessage, hstep]⟩

theorem dispatch_color (w : World) (c : Int) (st : UserState) (m : Message)
    (hst : w.userStates c = some st) (hstep : st.Step = "color") (hm : PlainText c m) :
    ∃ w1, dispatch w (msgUpdate m) = .ok w1 ∧
      w1.userStates c =
        some { st with Order := { st.Order with Color := m.Text }, Step := "city" } ∧
      w1.orders = w.orders :=
  ⟨stepMessage w c st m, dispatch_msg_plain w c st m hst hm,
    by simp [stepMessage, hstep], by simp [stepMessage, hstep]⟩

theorem dispatch_city (w : World) (c : Int) (st : UserState) (m : Message)
    (hst : w.userStates c = some st) (hstep : st.Step = "city") (hm : PlainText c m) :
    ∃ w1, dispatch w (msgUpdate m) = .ok w1 ∧
      w1.userStates c =
        some { st with Order := { st.Order with City := m.Text }, Step := "delivery" } ∧
      w1.orders = w.orders :=
  ⟨stepMessage w c st m, dispatch_msg_plain w c st m hst hm,
    by simp [stepMessage, hstep], by simp [stepMessage, hstep]⟩

theorem dispatch_delivery (w : World) (c : Int) (st : UserState) (m : Message)
    (hst : w.userStates c = some st) (hstep : st.Step = "delivery") (hm : PlainText c m) :
    ∃ w1, dispatch w (msgUpdate m) = .ok w1 ∧
      w1.userStates c =
        some { st with Order := { st.Order with Delivery := m.Text }, Step := "want_photo" } ∧
      w1.orders = w.orders :=
  ⟨stepMessage w c st m, dispatch_msg_plain w c st m hst hm,
    by simp [stepMessage, hstep], by simp [stepMessage, hstep]⟩

theorem dispatch_contact (w : World) (c : Int) (st : UserState) (m : Message)
    (hst : w.userStates c = some st) (hstep : st.Step = "contact") (hm : PlainText c m) :
    ∃ w1, dispatch w (msgUpdate m) = .ok w1 ∧ w1.userStates c = none ∧
      w1.orders = w.orders ++ [stampOrder st.Order c m] :=
  ⟨stepMessage w c st m, dispatch_msg_plain w c st m hst hm,
    by simp [stepMessage, hstep], by simp [stepMessage, hstep, saveOrder]⟩

theorem stampOrder_fields (d : Order) (c : Int) (m : Message) :
    (stampOrder d c m).Article = d.Article ∧ (stampOrder d c m).Size = d.Size ∧
    (stampOrder d c m).Color = d.Color ∧ (stampOrder d c m).City = d.City ∧
    (stampOrder d c m).Delivery = d.Delivery ∧ (stampOrder d c m).Contact = m.Text ∧
    (stampOrder d c m).UserID = c ∧ (stampOrder d c m).Status = "pending" ∧
    (stampOrder d c m).PhotoFileID = d.PhotoFileID := by
  unfold stampOrder
  cases m.From <;> simp


/-! ## The menu text leaves registry and store alone -/

@[simp]
theorem sendMenu_userStates (w : World) (c : Int) :
    (sendMenu w c).userStates = w.userStates := by
  unfold sendMenu sendWelcome
  by_cases hh : (w.orders.any fun o => decide (o.UserID = c)) = true <;> simp [hh, World.send]

@[simp]
theorem sendMenu_orders (w : World) (c : Int) :
    (sendMenu w c).orders = w.orders := by
  unfold sendMenu sendWelcome
  by_cases hh : (w.orders.any fun o => decide (o.UserID = c)) = true <;> simp [hh, World.send]

theorem sendMenu_sent_setState (w : World) (k : Int) (v : Option UserState) (c : Int) :
    (sendMenu (w.setState k v) c).sent = (sendMenu w c).sent := by
  unfold sendMenu sendWelcome
  by_cases hh : (w.orders.any fun o => decide (o.UserID = c)) = true <;>
    simp [hh, World.send, World.setState]

/-! # The claims -/

/-! ## C1: the order dialogue -/

/-- Supporting fact for C1: from any state at step `menu`, the start-order
press, five texts, the skip-photo press and the contact text append exactly
one record to the store; its article, size, colour, city, delivery and
contact are the supplied texts, its owner is the chat id and its status is
`pending`. The photo reference of the record is read from the draft, which
the skip branch does not clear: it is empty when the draft holds none. -/
theorem dialogue_appends_order (w : World) (c : Int) (st : UserState)
    (b1 b2 : CallbackQuery) (m1 m2 m3 m4 m5 m6 : Message)
    (hst : w.userStates c = some st) (hmenu : st.Step = "menu")
    (hb1 : b1.Data = "start_order" ∧ PlainText c b1.Message)
    (hb2 : b2.Data = "skip_photo" ∧ b2.Message.ChatID = c)
    (h1 : PlainText c m1) (h2 : PlainText c m2) (h3 : PlainText c m3)
    (h4 : PlainText c m4) (h5 : PlainText c m5) (h6 : PlainText c m6) :
    ∃ w' rec, runUpdates w [pressUpdate b1, msgUpdate m1, msgUpdate m2, msgUpdate m3,
        msgUpdate m4, msgUpdate m5, pressUpdate b2, msgUpdate m6] = .ok w' ∧
      w'.orders = w.orders ++ [rec] ∧
      rec.Article = m1.Text ∧ rec.Size = m2.Text ∧ rec.Color = m3.Text ∧
      rec.City = m4.Text ∧ rec.Delivery = m5.Text ∧ rec.Contact = m6.Text ∧
      rec.UserID = c ∧ rec.Status = "pending" ∧
      rec.PhotoFileID = st.Order.PhotoFileID := by
  obtain ⟨w1, e1, s1, o1⟩ := handleCallback_start_order w c st b1 hst hmenu hb1.1 hb1.2
  obtain ⟨w2, e2, s2, o2⟩ := dispatch_article w1 c _ m1 s1 rfl h1
  obtain ⟨w3, e3, s3, o3⟩ := dispatch_size w2 c _ m2 s2 rfl h2
  obtain ⟨w4, e4, s4, o4⟩ := dispatch_color w3 c _ m3 s3 rfl h3
  obtain ⟨w5, e5, s5, o5⟩ := dispatch_city w4 c _ m4 s4 rfl h4
  obtain ⟨w6, e6, s6, o6⟩ := dispatch_delivery w5 c _ m5 s5 rfl h5
  obtain ⟨w7, e7, s7, o7⟩ := handleCallback_skip_photo w6 c _ b2 s6 rfl hb2.1 hb2.2
  obtain ⟨w8, e8, _, o8⟩ := dispatch_contact w7 c _ m6 s7 rfl h6
  have hrun : runUpdates w [pressUpdate b1, msgUpdate m1, msgUpdate m2, msgUpdate m3,
      msgUpdate m4, msgUpdate m5, pressUpdate b2, msgUpdate m6] = .ok w8 := by
    simp only [runUpdates, e1, e2, e3, e4, e5, e6, e7, e8]
  rw [o7, o6, o5, o4, o3, o2, o1] at o8
  exact ⟨w8, _, hrun, o8, stampOrder_fields _ c m6⟩

/-- The supporting fact for C1 at the scenario of the spec: customer 42 at a
fresh `menu` state, texts AB123 / 42 / - / Moscow / courier / @ivan; the
stored record has no photo reference. -/
theorem dialogue_appends_order_witness :
    (worldWith [] 42 { Step := "menu" }).userStates 42 = some { Step := "menu" } ∧
    ∃ w1 rec, runUpdates (worldWith [] 42 { Step := "menu" })
        [pressUpdate (pressOf ivan "start_order"), msgUpdate (textOf ivan "AB123"),
         msgUpdate (textOf ivan "42"), msgUpdate (textOf ivan "-"),
         msgUpdate (textOf ivan "Moscow"), msgUpdate (textOf ivan "courier"),
         pressUpdate (pressOf ivan "skip_photo"), msgUpdate (textOf ivan "@ivan")] = .ok w1 ∧
      w1.orders = [] ++ [rec] ∧
      rec.Article = "AB123" ∧ rec.Size = "42" ∧ rec.Color = "-" ∧
      rec.City = "Moscow" ∧ rec.Delivery = "courier" ∧ rec.Contact = "@ivan" ∧
      rec.UserID = 42 ∧ rec.Status = "pending" ∧ rec.PhotoFileID = "" :=
  ⟨rfl, dialogue_appends_order (worldWith [] 42 { Step := "menu" }) 42 { Step := "menu" }
    (pressOf ivan "start_order") (pressOf ivan "skip_photo")
    (textOf ivan "AB123") (textOf ivan "42") (textOf ivan "-") (textOf ivan "Moscow")
    (textOf ivan "courier") (textOf ivan "@ivan")
    rfl rfl ⟨rfl, rfl, by decide, by decide, rfl⟩ ⟨rfl, rfl⟩
    ⟨rfl, by decide, by decide, rfl⟩ ⟨rfl, by decide, by decide, rfl⟩
    ⟨rfl, by decide, by decide, rfl⟩ ⟨rfl, by decide, by decide, rfl⟩
    ⟨rfl, by decide, by decide, rfl⟩ ⟨rfl, by decide, by decide, rfl⟩⟩

/-- Claim C1, evaluated at a failing input: customer 42 attaches photo `F1`,
abandons the dialogue with `/start` (which puts the actor at step `menu` and
keeps the draft), then runs the scenario's dialogue with the skip-photo
choice; the record that is stored carries the photo reference `F1`, not an
empty one, and the photo `F1` is sent to the administrators with it. -/
theorem dialogue_keeps_stale_photo :
    ∃ w0 st w1, runUpdates (initWorld []) (abandonedDialogue ivan) = .ok w0 ∧
      w0.userStates 42 = some st ∧ st.Step = "menu" ∧ w0.orders = [] ∧
      runUpdates w0 (orderDialogue ivan) = .ok w1 ∧
      w1.orders = [{ pendingOrder42 with PhotoFileID := "F1" }] ∧
      w1.orders.map (fun o => o.PhotoFileID) ≠ [""] ∧
      (∀ a ∈ adminIDs, Chattable.photo a "F1" ∈ w1.sent) :=
  ⟨_, _, _, rfl, rfl, rfl, rfl, rfl, by decide, by decide, by decide⟩

/-! ## C2: the price path -/

/-- Claim C2, evaluated at its scenario: the first button of
`adminActionKeyboard 42` carries `admin_price:42`; an administrator at step
`menu` who presses it and then sends `50 USD, 7 days` leaves the store as it
was (the order of 42 is still `pending`, no admin message) and the only
message sent is the welcome text to the administrator. Started at the step
`admin_action` instead, the press registers `send_price` for the
administrator, and the text that follows is dropped all the same. -/
theorem admin_price_never_reaches_store :
    (adminActionKeyboard 42).map (fun row => row.map (fun b => b.CallbackData)) =
      [[some "admin_price:42", some "admin_reject:42"]] ∧
    (∃ w1, runUpdates (worldWith [pendingOrder42] admin.ID { Step := "menu" })
        [pressUpdate (pressOf admin "admin_price:42"),
         msgUpdate (textOf admin "50 USD, 7 days")] = .ok w1 ∧
      w1.orders = [pendingOrder42] ∧
      w1.sent = (sendWelcome (initWorld []) admin.ID).sent) ∧
    (∃ w2, runUpdates (worldWith [pendingOrder42] admin.ID { Step := "admin_action" })
        [pressUpdate (pressOf admin "admin_price:42"),
         msgUpdate (textOf admin "50 USD, 7 days")] = .ok w2 ∧
      w2.orders = [pendingOrder42] ∧
      w2.userStates admin.ID = some { Step := "send_price", Order := { UserID := 42 } } ∧
      w2.sent = [.message admin.ID
        "Введите сообщение для пользователя (цена, сроки, оплата):" none]) :=
  ⟨by decide, ⟨_, rfl, rfl, rfl⟩, ⟨_, rfl, rfl, rfl, rfl⟩⟩

/-! ## C3: customer resolution -/

/-- Claim C3, evaluated at its scenario: customer 42 submits the order through
the dialogue (which removes the registry entry) and the record is set to
`price_sent`. A press of decline or confirm then dereferences the absent
entry. If the customer first sends a text (entry recreated at `menu`) the
press is ignored, and even at the step `user_confirm` the record stays
`price_sent`, because the update only matches `pending` records. -/
theorem customer_resolution_has_no_effect :
    ∃ w0, runUpdates (initWorld [])
        (msgUpdate (commandOf ivan "start") :: orderDialogue ivan) = .ok w0 ∧
      w0.orders = [pendingOrder42] ∧
      (updateOrderStatus w0 42 "price_sent" "50 USD, 7 days").orders =
        [{ pendingOrder42 with Status := "price_sent", AdminMessage := "50 USD, 7 days" }] ∧
      dispatch (updateOrderStatus w0 42 "price_sent" "50 USD, 7 days")
        (pressUpdate (pressOf ivan "user_decline")) = .error .nilDereference ∧
      dispatch (updateOrderStatus w0 42 "price_sent" "50 USD, 7 days")
        (pressUpdate (pressOf ivan "user_accept")) = .error .nilDereference ∧
      (∃ w1, runUpdates (updateOrderStatus w0 42 "price_sent" "50 USD, 7 days")
          [msgUpdate (textOf ivan "hi"), pressUpdate (pressOf ivan "user_decline")] = .ok w1 ∧
        w1.orders.map (fun o => o.Status) = ["price_sent"]) ∧
      (∃ w2, dispatch
          ((updateOrderStatus w0 42 "price_sent" "50 USD, 7 days").setState 42
            (some { Step := "user_confirm" }))
          (pressUpdate (pressOf ivan "user_decline")) = .ok w2 ∧
        w2.orders.map (fun o => o.Status) = ["price_sent"]) :=
  ⟨_, rfl, by decide, by decide, rfl, rfl, ⟨_, rfl, by decide⟩, ⟨_, rfl, by decide⟩⟩

/-! ## C4: the reject path -/

/-- Claim C4, evaluated at its scenario: an administrator at step `menu`
presses the reject button for owner 42 (payload `admin_reject:42`); the
pending order of 42 is still `pending` and nothing is sent. -/
theorem admin_reject_at_menu_ignored :
    ∃ w1, dispatch (worldWith [pendingOrder42] admin.ID { Step := "menu" })
        (pressUpdate (pressOf admin "admin_reject:42")) = .ok w1 ∧
      w1.orders = [pendingOrder42] ∧ w1.sent = [] ∧
      w1.userStates admin.ID = some { Step := "menu" } :=
  ⟨_, rfl, rfl, rfl, rfl⟩

/-! ## C5: the status update -/

/-- Claim C5: `updateOrderStatus u s m` keeps the length and the positions of
the store; a record with owner `u` and status `pending` gets status `s` (and
admin message `m` when `m` is not empty) and keeps every other field, every
other record is unchanged; with exactly one pending order of `u` in the store,
`updateOrderStatus u "rejected" ""` changes the status of that record and
nothing else. Registry and outbound log are untouched. -/
theorem updateOrderStatus_spec (w : World) (u : Int) (s m : String) :
    (updateOrderStatus w u s m).orders.length = w.orders.length ∧
    (∀ (i : Nat) (o : Order), w.orders[i]? = some o →
      (updateOrderStatus w u s m).orders[i]? =
        some (if o.UserID = u ∧ o.Status = "pending" then
          { o with Status := s, AdminMessage := if m = "" then o.AdminMessage else m }
        else o)) ∧
    (∀ (pre post : List Order) (o : Order), w.orders = pre ++ o :: post →
      o.UserID = u → o.Status = "pending" →
      (∀ x ∈ pre ++ post, ¬ (x.UserID = u ∧ x.Status = "pending")) →
      (updateOrderStatus w u "rejected" "").orders =
        pre ++ { o with Status := "rejected" } :: post) ∧
    (updateOrderStatus w u s m).userStates = w.userStates ∧
    (updateOrderStatus w u s m).sent = w.sent := by
  refine ⟨?_, ?_, ?_, rfl, rfl⟩
  · simp [updateOrderStatus, updateOrders_eq_map]
  · intro i o hi
    simp only [updateOrderStatus, updateOrders_eq_map, List.getElem?_map, hi, Option.map_some']
    by_cases hmatch : o.UserID = u ∧ o.Status = "pending"
    · by_cases hm : m = ""
      · simp [updateOne, markOrder, hmatch, hm]
      · simp [updateOne, markOrder, hmatch, hm]
    · simp [updateOne, hmatch]
  · intro pre post o hw hu hp hothers
    simp only [updateOrderStatus, updateOrders_eq_map, hw, List.map_append, List.map_cons]
    have hpre : pre.map (updateOne u "rejected" "") = pre := by
      conv_rhs => rw [← List.map_id pre]
      apply List.map_congr_left
      intro x hx
      exact updateOne_other u _ _ x (hothers x (List.mem_append_left _ hx))
    have hpost : post.map (updateOne u "rejected" "") = post := by
      conv_rhs => rw [← List.map_id post]
      apply List.map_congr_left
      intro x hx
      exact updateOne_other u _ _ x (hothers x (List.mem_append_right _ hx))
    rw [hpre, hpost]
    simp [updateOne, markOrder, hu, hp]

/-- Witness for C5: one pending order of 42 followed by an order of 7. -/
theorem updateOrderStatus_spec_witness :
    (updateOrderStatus (initWorld [pendingOrder42, order7]) 42 "rejected" "").orders =
      [] ++ { pendingOrder42 with Status := "rejected" } :: [order7] :=
  (updateOrderStatus_spec (initWorld [pendingOrder42, order7]) 42 "rejected" "").2.2.1
    [] [order7] pendingOrder42 rfl rfl rfl (by decide)

/-! ## C6: runtime faults -/

/-- Claim C6, evaluated at a failing input: a button press from an actor who
has no registry entry dereferences the nil entry, both in a process that has
just started and after the actor's entry was removed on order submission. -/
theorem callback_without_state_faults :
    dispatch (initWorld []) (pressUpdate (pressOf ivan "start_order")) =
      .error .nilDereference ∧
    runUpdates (initWorld [])
      (msgUpdate (commandOf ivan "start") :: orderDialogue ivan ++
        [pressUpdate (pressOf ivan "myorders")]) = .error .nilDereference :=
  ⟨rfl, rfl⟩

/-! ## C7: the status diagram -/

/-- Counterexample to C7 as stated: for an actor state at the step
`user_confirm`, which the claim names, a confirm press moves a `pending`
record of the customer straight to `confirmed`, an edge the diagram does not
have, although the record is not in `price_sent`; a `price_sent` record is
left where it is. -/
theorem confirm_moves_pending_to_confirmed :
    (∃ w1, dispatch (worldWith [pendingOrder42] 42 { Step := "user_confirm" })
        (pressUpdate (pressOf ivan "user_accept")) = .ok w1 ∧
      w1.orders = [{ pendingOrder42 with Status := "confirmed" }]) ∧
    (∃ w2, dispatch
        (worldWith [{ pendingOrder42 with Status := "price_sent" }] 42 { Step := "user_confirm" })
        (pressUpdate (pressOf ivan "user_accept")) = .ok w2 ∧
      w2.orders = [{ pendingOrder42 with Status := "price_sent" }]) :=
  ⟨⟨_, rfl, by decide⟩, ⟨_, rfl, by decide⟩⟩

/-! ## C8: the my-orders query -/

/-- Claim C8: `sendMyOrders` sends to chat `c` one message whose text is the
concatenation, in store order, of the entries (article, size, colour, city,
status, as `summaryEntry` spells them out) of exactly the records with owner
`c` or handle `h`, or the fixed no-orders text when there is none; store and
registry are unchanged, and a second query sends the same text. -/
theorem sendMyOrders_summary (w : World) (c : Int) (h : String) :
    (sendMyOrders w c h).sent = w.sent ++ [.message c (summaryText w.orders c h) none] ∧
    (sendMyOrders w c h).orders = w.orders ∧
    (sendMyOrders w c h).userStates = w.userStates ∧
    (sendMyOrders (sendMyOrders w c h) c h).sent =
      w.sent ++ [.message c (summaryText w.orders c h) none,
                 .message c (summaryText w.orders c h) none] := by
  simp [sendMyOrders, World.send, myOrdersText_eq]

/-! ## C9: whose orders the summary shows -/

/-- Counterexample to C9 as stated: the summary of actor 42, whose handle is
`ivan`, shows the order of owner 8 that was recorded under the handle `ivan`;
and the summary of an actor 42 without a handle shows the order of owner 7,
recorded without a handle. -/
theorem myOrders_shows_foreign_order :
    (order8.UserID ≠ 42 ∧ myOrdersText [order8] 42 "ivan" = summaryEntry order8) ∧
    (order7.UserID ≠ 42 ∧ myOrdersText [order7] 42 "" = summaryEntry order7 ∧
      myOrdersText [order7] 42 "" ≠ myOrdersText [] 42 "") := by
  decide

/-- Claim C9 (amended): for a requesting actor with chat id `c` and a
non-empty handle `h`, the records rendered in the summary are records of the
store whose owner is `c` or whose recorded handle is `h`; the text is
determined by those records, and a record with another owner and another
recorded handle is never rendered, wherever it stands in the store. The
empty handle is left out of the statement. -/
theorem myOrders_depends_on_owner_or_handle (orders : List Order) (c : Int) (h : String)
    (_hh : h ≠ "") :
    (∃ shown : List Order, shown.Sublist orders ∧
      (∀ o ∈ shown, o.UserID = c ∨ o.Username = h) ∧
      myOrdersText orders c h =
        if shown = [] then "У вас нет заказов." else String.join (shown.map summaryEntry)) ∧
    myOrdersText orders c h =
      myOrdersText (orders.filter (fun o => decide (o.UserID = c ∨ o.Username = h))) c h ∧
    (∀ (pre post : List Order) (other : Order), other.UserID ≠ c → other.Username ≠ h →
      myOrdersText (pre ++ other :: post) c h = myOrdersText (pre ++ post) c h) := by
  refine ⟨?_, ?_, ?_⟩
  · refine ⟨queryByOwnerOrHandle orders c h, List.filter_sublist _, ?_, ?_⟩
    · intro o ho
      simpa [queryByOwnerOrHandle] using (List.mem_filter.mp ho).2
    · rw [myOrdersText_eq]
      unfold summaryText
      cases queryByOwnerOrHandle orders c h <;> simp
  · rw [myOrdersText_eq, myOrdersText_eq]
    unfold summaryText
    have := queryByOwnerOrHandle_idem orders c h
    unfold queryByOwnerOrHandle at this ⊢
    rw [this]
  · intro pre post other h1 h2
    rw [myOrdersText_eq, myOrdersText_eq]
    unfold summaryText queryByOwnerOrHandle
    simp [List.filter_append, List.filter_cons, h1, h2]

/-- Witness for C9 (amended): the order of owner 7, recorded without a handle,
does not show in the summary of actor 42 with handle `ivan`. -/
theorem myOrders_depends_on_owner_or_handle_witness :
    ("ivan" : String) ≠ "" ∧ order7.UserID ≠ 42 ∧ order7.Username ≠ "ivan" ∧
    myOrdersText ([pendingOrder42] ++ order7 :: []) 42 "ivan" =
      myOrdersText ([pendingOrder42] ++ []) 42 "ivan" :=
  ⟨by decide, by decide, by decide,
    (myOrders_depends_on_owner_or_handle [pendingOrder42, order7] 42 "ivan" (by decide)).2.2
      [pendingOrder42] [] order7 (by decide) (by decide)⟩

/-! ## C10: commands -/

/-- Claim C10: for an actor with any registry entry, a `/start` command sets
the step to `menu`, keeps draft and waiting flag, leaves the store and the
other actors alone and sends only the menu; a `/myorders` command (from a
message that carries its sender) sends the my-orders text and leaves
registry and store unchanged. -/
theorem commands_short_circuit (w : World) (m : Message) (st : UserState)
    (hst : w.userStates m.ChatID = some st) :
    (m.Command = some "start" →
      ∃ w1, dispatch w (msgUpdate m) = .ok w1 ∧
        w1.userStates m.ChatID = some { st with Step := "menu" } ∧
        (∀ k, k ≠ m.ChatID → w1.userStates k = w.userStates k) ∧
        w1.orders = w.orders ∧
        w1.sent = (sendMenu w m.ChatID).sent) ∧
    (m.Command = some "myorders" → ∀ sender, m.From = some sender →
      ∃ w1, dispatch w (msgUpdate m) = .ok w1 ∧
        w1.userStates = w.userStates ∧ w1.orders = w.orders ∧
        w1.sent = w.sent ++ [.message m.ChatID
          (myOrdersText w.orders m.ChatID sender.UserName) none]) := by
  constructor
  · intro hcmd
    refine ⟨sendMenu (w.setState m.ChatID (some { st with Step := "menu" })) m.ChatID,
      ?_, ?_, ?_, ?_, ?_⟩
    · simp [dispatch, msgUpdate, hst, handleMessage, hcmd]
    · simp [World.setState]
    · intro k hk
      simp [World.setState, hk]
    · simp [World.setState]
    · exact sendMenu_sent_setState w _ _ _
  · intro hcmd sender hfrom
    refine ⟨sendMyOrders w m.ChatID sender.UserName, ?_, rfl, rfl, rfl⟩
    simp [dispatch, msgUpdate, hst, handleMessage, hcmd, hfrom]

/-- Witness for C10: customer 42 in the middle of a dialogue, waiting flag
set, sends `/start` and `/myorders`. -/
theorem commands_short_circuit_witness :
    (∃ w1, dispatch (worldWith [pendingOrder42] 42 midDialogue)
        (msgUpdate (commandOf ivan "start")) = .ok w1 ∧
      w1.userStates 42 = some { midDialogue with Step := "menu" } ∧
      (∀ k, k ≠ 42 → w1.userStates k = (worldWith [pendingOrder42] 42 midDialogue).userStates k) ∧
      w1.orders = [pendingOrder42] ∧
      w1.sent = (sendMenu (worldWith [pendingOrder42] 42 midDialogue) 42).sent) ∧
    (∃ w1, dispatch (worldWith [pendingOrder42] 42 midDialogue)
        (msgUpdate (commandOf ivan "myorders")) = .ok w1 ∧
      w1.userStates = (worldWith [pendingOrder42] 42 midDialogue).userStates ∧
      w1.orders = [pendingOrder42] ∧
      w1.sent = [] ++ [.message 42 (myOrdersText [pendingOrder42] 42 "ivan") none]) :=
  ⟨(commands_short_circuit (worldWith [pendingOrder42] 42 midDialogue)
      (commandOf ivan "start") midDialogue rfl).1 rfl,
   (commands_short_circuit (worldWith [pendingOrder42] 42 midDialogue)
      (commandOf ivan "myorders") midDialogue rfl).2 rfl ivan rfl⟩

/-! # Dialogue steps around the photo -/

theorem stepMessage_want_photo (w : World) (c : Int) (st : UserState) (m : Message)
    (h : st.Step = "want_photo") :
    stepMessage w c st m = w.send (.message c choosePrompt (some yesNoKeyboard)) := by
  simp [stepMessage, h, choosePrompt]

theorem stepMessage_wait_photo_upload (w : World) (c : Int) (st : UserState) (m : Message)
    (h : st.Step = "wait_photo_upload") : stepMessage w c st m = w := by
  simp [stepMessage, h]

/-! ## C11: the attach/skip choice -/

/-- Claim C11 (amended): at the step `want_photo`, a press with the yes
payload sets the waiting flag and moves to `wait_photo_upload`; a press with
the skip payload moves to `contact` with the draft untouched, and the flag,
when unset before the press, is unset after it; a text message that is not
one of the two commands leaves the world unchanged except for one prompt
that carries the attach/skip keyboard; a press with any other payload leaves
the world unchanged and sends nothing. Nothing is stated about the flag
after a skip press made with the flag set. -/
theorem want_photo_choice (w : World) (c : Int) (st : UserState)
    (hst : w.userStates c = some st) (hstep : st.Step = "want_photo") :
    (∀ cb : CallbackQuery, cb.Message.ChatID = c → cb.Data = "yes_photo" →
      ∃ w1, dispatch w (pressUpdate cb) = .ok w1 ∧
        w1.userStates c = some { st with WaitingPhoto := true, Step := "wait_photo_upload" } ∧
        w1.orders = w.orders) ∧
    (∀ cb : CallbackQuery, cb.Message.ChatID = c → cb.Data = "skip_photo" →
      ∃ w1 st1, dispatch w (pressUpdate cb) = .ok w1 ∧
        w1.userStates c = some st1 ∧ st1.Step = "contact" ∧ st1.Order = st.Order ∧
        (st.WaitingPhoto = false → st1.WaitingPhoto = false) ∧
        w1.orders = w.orders) ∧
    (∀ m : Message, PlainText c m →
      dispatch w (msgUpdate m) = .ok (w.send (.message c choosePrompt (some yesNoKeyboard)))) ∧
    (∀ cb : CallbackQuery, cb.Message.ChatID = c → cb.Data ≠ "yes_photo" →
      cb.Data ≠ "skip_photo" → dispatch w (pressUpdate cb) = .ok w) := by
  refine ⟨?_, ?_, ?_, ?_⟩
  · intro cb hc hd
    refine ⟨(w.send (.message c "Пришли фото товара:" none)).setState c
      (some { st with WaitingPhoto := true, Step := "wait_photo_upload" }), ?_, ?_, ?_⟩
    · rw [dispatch_press]
      simp [handleCallback, hc, hst, hstep, hd]
    · simp
    · simp
  · intro cb hc hd
    obtain ⟨w1, e1, s1, o1⟩ := handleCallback_skip_photo w c st cb hst hstep hd hc
    exact ⟨w1, _, e1, s1, rfl, rfl, fun hf => hf, o1⟩
  · intro m hm
    rw [dispatch_msg_plain w c st m hst hm, stepMessage_want_photo w c st m hstep]
  · intro cb hc h1 h2
    rw [dispatch_press]
    simp [handleCallback, hc, hst, hstep, h1, h2]

/-- Counterexample to C11 as stated: at `want_photo` a press with the payload
`myorders` sends nothing, so the choice is not prompted again; and after a
dialogue abandoned with `/start` once the yes choice was made, the next
dialogue reaches `want_photo` with the flag set, and the skip press moves to
`contact` with the flag still set. -/
theorem want_photo_other_press_silent :
    (∃ w1, dispatch (worldWith [] 42 { Step := "want_photo" })
        (pressUpdate (pressOf ivan "myorders")) = .ok w1 ∧ w1.sent = []) ∧
    (∃ w0 w1, runUpdates (initWorld []) (flagLeftSet ivan ++ dialogueToChoice ivan) = .ok w0 ∧
      (w0.userStates 42).map (fun s => s.Step) = some "want_photo" ∧
      dispatch w0 (pressUpdate (pressOf ivan "skip_photo")) = .ok w1 ∧
      (w1.userStates 42).map (fun s => (s.Step, s.WaitingPhoto)) = some ("contact", true)) :=
  ⟨⟨_, rfl, rfl⟩, ⟨_, _, rfl, rfl, rfl, rfl⟩⟩

/-- Witness for C11 (amended): customer 42 at the step `want_photo`. -/
theorem want_photo_choice_witness :
    (∃ w1, dispatch (worldWith [] 42 { Step := "want_photo" })
        (pressUpdate (pressOf ivan "yes_photo")) = .ok w1 ∧
      w1.userStates 42 = some { Step := "wait_photo_upload", WaitingPhoto := true } ∧
      w1.orders = []) ∧
    (∃ w1 st1, dispatch (worldWith [] 42 { Step := "want_photo" })
        (pressUpdate (pressOf ivan "skip_photo")) = .ok w1 ∧
      w1.userStates 42 = some st1 ∧ st1.Step = "contact" ∧ st1.Order = {} ∧
      ((false : Bool) = false → st1.WaitingPhoto = false) ∧ w1.orders = []) ∧
    dispatch (worldWith [] 42 { Step := "want_photo" }) (msgUpdate (textOf ivan "maybe")) =
      .ok ((worldWith [] 42 { Step := "want_photo" }).send
        (.message 42 choosePrompt (some yesNoKeyboard))) ∧
    dispatch (worldWith [] 42 { Step := "want_photo" }) (pressUpdate (pressOf ivan "myorders")) =
      .ok (worldWith [] 42 { Step := "want_photo" }) :=
  ⟨(want_photo_choice (worldWith [] 42 { Step := "want_photo" }) 42 { Step := "want_photo" }
      rfl rfl).1 (pressOf ivan "yes_photo") rfl rfl,
   (want_photo_choice (worldWith [] 42 { Step := "want_photo" }) 42 { Step := "want_photo" }
      rfl rfl).2.1 (pressOf ivan "skip_photo") rfl rfl,
   (want_photo_choice (worldWith [] 42 { Step := "want_photo" }) 42 { Step := "want_photo" }
      rfl rfl).2.2.1 (textOf ivan "maybe") ⟨rfl, by decide, by decide, rfl⟩,
   (want_photo_choice (worldWith [] 42 { Step := "want_photo" }) 42 { Step := "want_photo" }
      rfl rfl).2.2.2 (pressOf ivan "myorders") rfl (by decide) (by decide)⟩

/-! ## C13: events ignored while a photo is awaited -/

/-- Claim C13: at the step `wait_photo_upload`, a message without a photo that
is not one of the two commands, and any button press, leave the whole world
(registry, store, outbound log) exactly as it was. -/
theorem wait_photo_upload_ignores (w : World) (c : Int) (st : UserState)
    (hst : w.userStates c = some st) (hstep : st.Step = "wait_photo_upload") :
    (∀ m : Message, PlainText c m → dispatch w (msgUpdate m) = .ok w) ∧
    (∀ cb : CallbackQuery, cb.Message.ChatID = c → dispatch w (pressUpdate cb) = .ok w) := by
  constructor
  · intro m hm
    rw [dispatch_msg_plain w c st m hst hm, stepMessage_wait_photo_upload w c st m hstep]
  · intro cb hc
    rw [dispatch_press]
    simp [handleCallback, hc, hst, hstep]

/-- Witness for C13: customer 42 awaits a photo and sends a text, then presses
a button. -/
theorem wait_photo_upload_ignores_witness :
    dispatch (worldWith [] 42 { Step := "wait_photo_upload", WaitingPhoto := true })
        (msgUpdate (textOf ivan "hello")) =
      .ok (worldWith [] 42 { Step := "wait_photo_upload", WaitingPhoto := true }) ∧
    dispatch (worldWith [] 42 { Step := "wait_photo_upload", WaitingPhoto := true })
        (pressUpdate (pressOf ivan "skip_photo")) =
      .ok (worldWith [] 42 { Step := "wait_photo_upload", WaitingPhoto := true }) :=
  ⟨(wait_photo_upload_ignores _ 42 { Step := "wait_photo_upload", WaitingPhoto := true }
      rfl rfl).1 (textOf ivan "hello") ⟨rfl, by decide, by decide, rfl⟩,
   (wait_photo_upload_ignores _ 42 { Step := "wait_photo_upload", WaitingPhoto := true }
      rfl rfl).2 (pressOf ivan "skip_photo") rfl⟩

theorem dispatch_photo (w : World) (c : Int) (st : UserState) (pm : Message)
    (vs : List PhotoSize) (hne : vs ≠ [])
    (hst : w.userStates c = some st) (hflag : st.WaitingPhoto = true)
    (hpc : pm.ChatID = c) (hc1 : pm.Command ≠ some "start") (hc2 : pm.Command ≠ some "myorders")
    (hph : pm.Photo = some vs) :
    dispatch w (msgUpdate pm) =
      .ok ((w.setState c (some (withPhoto st (vs.getLast hne).FileID))).send
        (.message c contactPrompt none)) := by
  have hl : vs.getLast? = some (vs.getLast hne) := List.getLast?_eq_getLast vs hne
  simp [dispatch, msgUpdate, handleMessage, hpc, hst, hflag, hc1, hc2, hph, hl, withPhoto]

/-! ## C12: the photo reference of a submitted order -/

/-- Supporting fact for C12: at the step `wait_photo_upload` with the flag
set, a photo message with a non-empty variant list clears the flag, records
the file id of one of its variants (the last one) in the draft and moves to
`contact`; the order submitted by the contact text that follows is stored
with that photo reference. After the skip choice the photo reference of the
stored order is read from the draft, which the skip branch does not clear: it
is empty when the draft holds none. -/
theorem photo_reference_of_order (w : World) (c : Int) (st : UserState) :
    (∀ (pm m : Message) (vs : List PhotoSize) (hne : vs ≠ []),
      w.userStates c = some st → st.Step = "wait_photo_upload" → st.WaitingPhoto = true →
      pm.ChatID = c → pm.Command ≠ some "start" → pm.Command ≠ some "myorders" →
      pm.Photo = some vs → PlainText c m →
      vs.getLast hne ∈ vs ∧
      ∃ w1 w2 rec, dispatch w (msgUpdate pm) = .ok w1 ∧
        w1.userStates c = some (withPhoto st (vs.getLast hne).FileID) ∧
        w1.orders = w.orders ∧
        dispatch w1 (msgUpdate m) = .ok w2 ∧
        w2.orders = w.orders ++ [rec] ∧ rec.PhotoFileID = (vs.getLast hne).FileID) ∧
    (∀ (cb : CallbackQuery) (m : Message),
      w.userStates c = some st → st.Step = "want_photo" →
      cb.Message.ChatID = c → cb.Data = "skip_photo" → PlainText c m →
      ∃ w2 rec, runUpdates w [pressUpdate cb, msgUpdate m] = .ok w2 ∧
        w2.orders = w.orders ++ [rec] ∧ rec.PhotoFileID = st.Order.PhotoFileID) := by
  constructor
  · intro pm m vs hne hst hstep hflag hpc hc1 hc2 hph hm
    refine ⟨List.getLast_mem hne, ?_⟩
    have e1 := dispatch_photo w c st pm vs hne hst hflag hpc hc1 hc2 hph
    have s1 : ((w.setState c (some (withPhoto st (vs.getLast hne).FileID))).send
        (.message c contactPrompt none)).userStates c =
        some (withPhoto st (vs.getLast hne).FileID) := by simp
    obtain ⟨w2, e2, _, o2⟩ := dispatch_contact _ c _ m s1 rfl hm
    have o2b : w2.orders = w.orders ++ [stampOrder (withPhoto st (vs.getLast hne).FileID).Order c m] := by
      simpa using o2
    exact ⟨_, w2, _, e1, s1, by simp, e2, o2b,
      (stampOrder_fields _ c m).2.2.2.2.2.2.2.2⟩
  · intro cb m hst hstep hc hd hm
    obtain ⟨w1, e1, s1, o1⟩ := handleCallback_skip_photo w c st cb hst hstep hd hc
    obtain ⟨w2, e2, _, o2⟩ := dispatch_contact w1 c _ m s1 rfl hm
    rw [o1] at o2
    exact ⟨w2, _, by simp only [runUpdates, e1, e2], o2,
      (stampOrder_fields _ c m).2.2.2.2.2.2.2.2⟩

/-- Claim C12, evaluated at a failing input: after a dialogue that attached
photo `F1` and was abandoned with `/start`, the next dialogue reaches the
attach/skip choice with `F1` still in the draft, and the order submitted after
the skip choice is stored with the photo reference `F1` instead of none. -/
theorem skip_choice_keeps_old_photo :
    ∃ w0 st w1, runUpdates (initWorld []) (abandonedDialogue ivan ++ dialogueToChoice ivan) = .ok w0 ∧
      w0.userStates 42 = some st ∧ st.Step = "want_photo" ∧ w0.orders = [] ∧
      runUpdates w0 [pressUpdate (pressOf ivan "skip_photo"), msgUpdate (textOf ivan "@ivan")] = .ok w1 ∧
      w1.orders.map (fun o => o.PhotoFileID) = ["F1"] ∧
      w1.orders.map (fun o => o.PhotoFileID) ≠ [""] :=
  ⟨_, _, _, rfl, rfl, rfl, rfl, rfl, rfl, by decide⟩


/-- The supporting fact for C12 at customer 42, who awaits a photo and sends
one with two variants, then the contact text. -/
theorem photo_reference_of_order_witness :
    ∃ w1 w2 rec, dispatch (worldWith [] 42 { Step := "wait_photo_upload", WaitingPhoto := true })
        (msgUpdate (photoOf ivan [{ FileID := "FS", Width := 90, Height := 90 },
          { FileID := "FB", Width := 800, Height := 800 }])) = .ok w1 ∧
      w1.userStates 42 = some { Step := "contact", Order := { PhotoFileID := "FB" } } ∧
      w1.orders = [] ∧
      dispatch w1 (msgUpdate (textOf ivan "@ivan")) = .ok w2 ∧
      w2.orders = [] ++ [rec] ∧ rec.PhotoFileID = "FB" :=
  ((photo_reference_of_order (worldWith [] 42 { Step := "wait_photo_upload", WaitingPhoto := true })
    42 { Step := "wait_photo_upload", WaitingPhoto := true }).1
    (photoOf ivan [{ FileID := "FS", Width := 90, Height := 90 },
      { FileID := "FB", Width := 800, Height := 800 }])
    (textOf ivan "@ivan") _ (by decide) rfl rfl rfl rfl (by decide) (by decide) rfl
    ⟨rfl, by decide, by decide, rfl⟩).2

/-! # Effects of one update on registry and store -/

theorem setState_userStates (w : World) (k : Int) (v : Option UserState) (j : Int) :
    (w.setState k v).userStates j = if j = k then v else w.userStates j := rfl

@[simp]
theorem sendWelcome_orders (w : World) (c : Int) : (sendWelcome w c).orders = w.orders := rfl

@[simp]
theorem sendWelcome_userStates (w : World) (c : Int) :
    (sendWelcome w c).userStates = w.userStates := rfl

@[simp]
theorem sendMyOrders_orders (w : World) (c : Int) (h : String) :
    (sendMyOrders w c h).orders = w.orders := rfl

@[simp]
theorem sendMyOrders_userStates (w : World) (c : Int) (h : String) :
    (sendMyOrders w c h).userStates = w.userStates := rfl

@[simp]
theorem sendContactAdmins_orders (w : World) (c : Int) :
    (sendContactAdmins w c).orders = w.orders := rfl

@[simp]
theorem sendContactAdmins_userStates (w : World) (c : Int) :
    (sendContactAdmins w c).userStates = w.userStates := rfl

@[simp]
theorem updateOrderStatus_userStates (w : World) (u : Int) (s m : String) :
    (updateOrderStatus w u s m).userStates = w.userStates := rfl

@[simp]
theorem updateOrderStatus_orders (w : World) (u : Int) (s m : String) :
    (updateOrderStatus w u s m).orders = updateOrders w.orders u s m := rfl

@[simp]
theorem saveOrder_userStates (w : World) (o : Order) :
    (saveOrder w o).userStates = w.userStates := rfl

@[simp]
theorem saveOrder_orders (w : World) (o : Order) :
    (saveOrder w o).orders = w.orders ++ [o] := rfl

theorem stepMessage_orders (w : World) (c : Int) (st : UserState) (m : Message) :
    (st.Step ≠ "contact" ∧ (stepMessage w c st m).orders = w.orders) ∨
    (st.Step = "contact" ∧ (stepMessage w c st m).orders = w.orders ++ [stampOrder st.Order c m]) := by
  unfold stepMessage
  split <;> simp_all

theorem handleMessage_orders (w w1 : World) (m : Message) (h : handleMessage w m = .ok w1) :
    w1.orders = w.orders ∨
    ∃ st, w.userStates m.ChatID = some st ∧ st.Step = "contact" ∧
      w1.orders = w.orders ++ [stampOrder st.Order m.ChatID m] := by
  unfold handleMessage at h
  simp only at h
  split at h
  · split at h
    · exact absurd h (by simp)
    · simp only [Except.ok.injEq] at h; subst h; left; simp
  · split at h
    · split at h
      · exact absurd h (by simp)
      · simp only [Except.ok.injEq] at h; subst h; left; simp
    · split at h
      · exact absurd h (by simp)
      · rename_i st hst
        split at h
        · split at h
          · exact absurd h (by simp)
          · simp only [Except.ok.injEq] at h; subst h; left; simp
        · simp only [Except.ok.injEq] at h; subst h
          rcases stepMessage_orders w m.ChatID st m with ⟨_, ho⟩ | ⟨hs, ho⟩
          · left; exact ho
          · right; exact ⟨st, hst, hs, ho⟩

theorem handleCallback_orders (w w1 : World) (cb : CallbackQuery)
    (h : handleCallback w cb = .ok w1) :
    w1.orders = w.orders ∨
    ∃ st u s, w.userStates cb.Message.ChatID = some st ∧
      (st.Step = "admin_action" ∨ st.Step = "user_confirm") ∧
      w1.orders = updateOrders w.orders u s "" := by
  unfold handleCallback at h
  simp only at h
  split at h
  · exact absurd h (by simp)
  · rename_i st hst
    have hstart : ∀ w2, handleMessage (w.setState cb.Message.ChatID
        (some { st with Step := "start_order" })) cb.Message = .ok w2 → w2.orders = w.orders := by
      intro w2 h2
      rcases handleMessage_orders _ _ _ h2 with ho | ⟨s2, hs2, hstep, _⟩
      · simpa using ho
      · simp only [setState_userStates_same, Option.some.injEq] at hs2
        subst hs2
        simp at hstep
    split at h
    · split_ifs at h
      · left; exact hstart _ h
      all_goals (simp only [Except.ok.injEq] at h; subst h; left; simp)
    · split_ifs at h
      · left; exact hstart _ h
      · simp only [Except.ok.injEq] at h; subst h; left; rfl
    · split_ifs at h <;> (simp only [Except.ok.injEq] at h; subst h; left; simp)
    · simp only [Except.ok.injEq] at h; subst h; left; rfl
    · rename_i hstep
      split_ifs at h
      · simp only [Except.ok.injEq] at h; subst h; left; simp
      · simp only [Except.ok.injEq] at h; subst h
        right; exact ⟨st, _, _, hst, Or.inl hstep, rfl⟩
      · simp only [Except.ok.injEq] at h; subst h; left; rfl
    · rename_i hstep
      split_ifs at h
      · simp only [Except.ok.injEq] at h; subst h
        right; exact ⟨st, _, _, hst, Or.inr hstep, rfl⟩
      · simp only [Except.ok.injEq] at h; subst h
        right; exact ⟨st, _, _, hst, Or.inr hstep, rfl⟩
      · simp only [Except.ok.injEq] at h; subst h; left; rfl
    · simp only [Except.ok.injEq] at h; subst h; left; rfl

theorem good_of_userStates_eq (w w1 : World) (h : w1.userStates = w.userStates)
    (hw : GoodRegistry w) : GoodRegistry w1 := by
  intro k st hk
  rw [h] at hk
  exact hw k st hk

theorem good_setState (w : World) (k : Int) (v : Option UserState)
    (hw : GoodRegistry w) (hv : ∀ s, v = some s → GoodState s) :
    GoodRegistry (w.setState k v) := by
  intro j st hj
  rw [setState_userStates] at hj
  split at hj
  · exact hv st hj
  · exact hw j st hj

theorem good_send (w : World) (x : Chattable) (hw : GoodRegistry w) :
    GoodRegistry (w.send x) := hw

theorem good_setState_some (w : World) (k : Int) (s : UserState)
    (hw : GoodRegistry w) (hs : GoodState s) : GoodRegistry (w.setState k (some s)) :=
  good_setState w k _ hw (fun s1 h1 => by cases h1; exact hs)

theorem good_setState_none (w : World) (k : Int) (hw : GoodRegistry w) :
    GoodRegistry (w.setState k none) :=
  good_setState w k _ hw (fun s1 h1 => by cases h1)

theorem good_sendWelcome (w : World) (c : Int) (hw : GoodRegistry w) :
    GoodRegistry (sendWelcome w c) := hw

theorem good_sendMenu (w : World) (c : Int) (hw : GoodRegistry w) :
    GoodRegistry (sendMenu w c) :=
  good_of_userStates_eq w _ (sendMenu_userStates w c) hw

theorem good_sendMyOrders (w : World) (c : Int) (h : String) (hw : GoodRegistry w) :
    GoodRegistry (sendMyOrders w c h) := hw

theorem good_sendContactAdmins (w : World) (c : Int) (hw : GoodRegistry w) :
    GoodRegistry (sendContactAdmins w c) := hw

theorem good_saveOrder (w : World) (o : Order) (hw : GoodRegistry w) :
    GoodRegistry (saveOrder w o) := hw

theorem good_notifyAdmins (w : World) (o : Order) (hw : GoodRegistry w) :
    GoodRegistry (notifyAdmins w o) :=
  good_of_userStates_eq w _ (notifyAdmins_userStates w o) hw

theorem stepMessage_good (w : World) (c : Int) (st : UserState) (m : Message)
    (hw : GoodRegistry w) : GoodRegistry (stepMessage w c st m) := by
  unfold stepMessage
  split
  · exact good_sendMenu _ _ hw
  · exact good_sendWelcome _ _ hw
  all_goals
    first
    | exact hw
    | exact good_send _ _ hw
    | exact good_setState_some _ _ _ (good_send _ _ hw) ⟨by simp [customerSteps], by simp⟩
    | exact good_setState_none _ _ (good_notifyAdmins _ _ (good_send _ _ (good_saveOrder _ _ hw)))

theorem handleMessage_good (w w1 : World) (m : Message) (hw : GoodRegistry w)
    (h : handleMessage w m = .ok w1) : GoodRegistry w1 := by
  unfold handleMessage at h
  simp only at h
  split at h
  · split at h
    · exact absurd h (by simp)
    · simp only [Except.ok.injEq] at h; subst h
      exact good_sendMenu _ _ (good_setState_some _ _ _ hw ⟨by simp [customerSteps], by simp⟩)
  · split at h
    · split at h
      · exact absurd h (by simp)
      · simp only [Except.ok.injEq] at h; subst h; exact hw
    · split at h
      · exact absurd h (by simp)
      · split at h
        · split at h
          · exact absurd h (by simp)
          · simp only [Except.ok.injEq] at h; subst h
            exact good_send _ _
              (good_setState_some _ _ _ hw ⟨by simp [customerSteps], by simp⟩)
        · simp only [Except.ok.injEq] at h; subst h
          exact stepMessage_good _ _ _ _ hw

theorem handleCallback_good (w w1 : World) (cb : CallbackQuery) (hw : GoodRegistry w)
    (h : handleCallback w cb = .ok w1) : GoodRegistry w1 := by
  unfold handleCallback at h
  simp only at h
  split at h
  · exact absurd h (by simp)
  · rename_i st hst
    have hgood := hw _ _ hst
    have hstart : ∀ w2, handleMessage (w.setState cb.Message.ChatID
        (some { st with Step := "start_order" })) cb.Message = .ok w2 → GoodRegistry w2 := by
      intro w2 h2
      exact handleMessage_good _ _ _
        (good_setState_some _ _ _ hw ⟨by simp [customerSteps], by simp⟩) h2
    split at h
    · split_ifs at h
      · exact hstart _ h
      all_goals (simp only [Except.ok.injEq] at h; subst h; exact hw)
    · split_ifs at h
      · exact hstart _ h
      · simp only [Except.ok.injEq] at h; subst h; exact hw
    · split_ifs at h
      · simp only [Except.ok.injEq] at h; subst h
        exact good_setState_some _ _ _ (good_send _ _ hw) ⟨by simp [customerSteps], by simp⟩
      · simp only [Except.ok.injEq] at h; subst h
        exact good_send _ _ (good_setState_some _ _ _ hw ⟨by simp [customerSteps], by simp⟩)
      · simp only [Except.ok.injEq] at h; subst h; exact hw
    · simp only [Except.ok.injEq] at h; subst h; exact hw
    · rename_i hstep
      have hmem := hgood.1
      rw [hstep] at hmem
      exact absurd hmem (by simp [customerSteps])
    · rename_i hstep
      have hmem := hgood.1
      rw [hstep] at hmem
      exact absurd hmem (by simp [customerSteps])
    · simp only [Except.ok.injEq] at h; subst h; exact hw

theorem dispatch_good (w w1 : World) (u : Update) (hw : GoodRegistry w)
    (h : dispatch w u = .ok w1) : GoodRegistry w1 := by
  unfold dispatch at h
  split at h
  · simp only at h
    split at h
    · exact handleMessage_good _ _ _
        (good_setState_some _ _ _ hw ⟨by simp [customerSteps], by simp⟩) h
    · exact handleMessage_good _ _ _ hw h
  · split at h
    · exact handleCallback_good _ _ _ hw h
    · simp only [Except.ok.injEq] at h; subst h; exact hw

theorem runUpdates_good (us : List Update) (w w1 : World) (hw : GoodRegistry w)
    (h : runUpdates w us = .ok w1) : GoodRegistry w1 := by
  induction us generalizing w with
  | nil => simp only [runUpdates, Except.ok.injEq] at h; subst h; exact hw
  | cons u us ih =>
    simp only [runUpdates] at h
    split at h
    · exact absurd h (by simp)
    · rename_i w2 h2
      exact ih w2 (dispatch_good _ _ _ hw h2) h

theorem initWorld_good (orders : List Order) : GoodRegistry (initWorld orders) := by
  intro k st hk
  simp [initWorld] at hk

theorem dispatch_orders (w w1 : World) (u : Update) (h : dispatch w u = .ok w1) :
    w1.orders = w.orders ∨
    (∃ d c m, w1.orders = w.orders ++ [stampOrder d c m]) ∨
    (∃ c st x s, w.userStates c = some st ∧
      (st.Step = "admin_action" ∨ st.Step = "user_confirm") ∧
      w1.orders = updateOrders w.orders x s "") := by
  unfold dispatch at h
  split at h
  · rename_i message _
    simp only at h
    cases hreg : w.userStates message.ChatID with
    | none =>
      simp only [hreg] at h
      rcases handleMessage_orders _ _ _ h with ho | ⟨st, _, _, ho⟩
      · left; rw [ho]; rfl
      · right; left
        exact ⟨st.Order, message.ChatID, message, by rw [ho]; rfl⟩
    | some st0 =>
      simp only [hreg] at h
      rcases handleMessage_orders _ _ _ h with ho | ⟨st, _, _, ho⟩
      · left; exact ho
      · right; left
        exact ⟨st.Order, message.ChatID, message, ho⟩
  · split at h
    · rcases handleCallback_orders _ _ _ h with ho | ⟨st, x, s, hst, hstep, ho⟩
      · left; exact ho
      · right; right; exact ⟨_, st, x, s, hst, hstep, ho⟩
    · simp only [Except.ok.injEq] at h; subst h; left; rfl

theorem stampOrder_status (d : Order) (c : Int) (m : Message) :
    (stampOrder d c m).Status = "pending" :=
  (stampOrder_fields d c m).2.2.2.2.2.2.2.1

theorem dispatch_orders_good (w w1 : World) (u : Update) (hw : GoodRegistry w)
    (h : dispatch w u = .ok w1) :
    w1.orders = w.orders ∨ ∃ o, o.Status = "pending" ∧ w1.orders = w.orders ++ [o] := by
  rcases dispatch_orders w w1 u h with ho | ⟨d, c, m, ho⟩ | ⟨c, st, x, s, hst, hstep, _⟩
  · left; exact ho
  · right; exact ⟨_, stampOrder_status d c m, ho⟩
  · exfalso
    have hmem := (hw c st hst).1
    rcases hstep with hs | hs <;> rw [hs] at hmem <;> simp [customerSteps] at hmem

theorem runUpdates_orders_good (us : List Update) (w w1 : World) (hw : GoodRegistry w)
    (h : runUpdates w us = .ok w1) :
    ∃ added, w1.orders = w.orders ++ added ∧ ∀ o ∈ added, o.Status = "pending" := by
  induction us generalizing w with
  | nil =>
    simp only [runUpdates, Except.ok.injEq] at h; subst h
    exact ⟨[], by simp, by simp⟩
  | cons u us ih =>
    simp only [runUpdates] at h
    split at h
    · exact absurd h (by simp)
    · rename_i w2 h2
      obtain ⟨added, ha, hp⟩ := ih w2 (dispatch_good _ _ _ hw h2) h
      rcases dispatch_orders_good _ _ _ hw h2 with ho | ⟨o, hos, ho⟩
      · exact ⟨added, by rw [ha, ho], hp⟩
      · refine ⟨o :: added, by rw [ha, ho]; simp, ?_⟩
        intro x hx
        rcases List.mem_cons.mp hx with rfl | hx
        · exact hos
        · exact hp x hx

theorem updateOne_same (u : Int) (s m : String) (o : Order) :
    SameDialogueFields o (updateOne u s m o) := by
  unfold updateOne markOrder SameDialogueFields
  split_ifs <;> simp

theorem sameDialogueFields_refl (l : List Order) : List.Forall₂ SameDialogueFields l l := by
  induction l with
  | nil => exact List.Forall₂.nil
  | cons a l ih => exact List.Forall₂.cons (by simp [SameDialogueFields]) ih

theorem sameDialogueFields_map (u : Int) (s m : String) (l : List Order) :
    List.Forall₂ SameDialogueFields l (l.map (updateOne u s m)) := by
  induction l with
  | nil => exact List.Forall₂.nil
  | cons a l ih => exact List.Forall₂.cons (updateOne_same u s m a) ih

theorem stepMessage_photo_kept (w : World) (c : Int) (st st1 : UserState) (m : Message)
    (hst : w.userStates c = some st)
    (h : (stepMessage w c st m).userStates c = some st1) :
    st1.Order.PhotoFileID = st.Order.PhotoFileID := by
  unfold stepMessage at h
  split at h <;> simp [hst] at h <;> subst h <;> rfl

theorem dispatch_photo_kept (w w1 : World) (c : Int) (st st1 : UserState) (pm : Message)
    (hst : w.userStates c = some st) (hflag : st.WaitingPhoto = false) (hc : pm.ChatID = c)
    (h : dispatch w (msgUpdate pm) = .ok w1) (h1 : w1.userStates c = some st1) :
    st1.Order.PhotoFileID = st.Order.PhotoFileID := by
  simp only [dispatch, msgUpdate, hc, hst] at h
  by_cases hc1 : pm.Command = some "start"
  · simp [handleMessage, hc1, hc, hst] at h
    subst h
    simp at h1
    subst h1
    rfl
  · by_cases hc2 : pm.Command = some "myorders"
    · cases hfrom : pm.From with
      | none => simp [handleMessage, hc2, hfrom] at h
      | some sender =>
        simp [handleMessage, hc2, hfrom, hc] at h
        subst h
        simp [hst] at h1
        subst h1
        rfl
    · simp [handleMessage, hc1, hc2, hc, hst, hflag] at h
      subst h
      exact stepMessage_photo_kept w c st st1 pm hst h1

theorem adminSummary_eq_fanOutSummary (order : Order) :
    adminSummary order = fanOutSummary order := rfl

theorem notifyAdmin_sent (order : Order) (w : World) (a : Int) :
    (notifyAdmin order w a).sent = w.sent ++ fanOutTo order a := by
  unfold notifyAdmin fanOutTo
  rw [adminSummary_eq_fanOutSummary]
  by_cases hp : order.PhotoFileID = "" <;> simp [hp, World.send]

theorem notifyRoster_sent (order : Order) (roster : List Int) (w : World) :
    (roster.foldl (notifyAdmin order) w).sent = w.sent ++ roster.flatMap (fanOutTo order) := by
  induction roster generalizing w with
  | nil => simp
  | cons a rest ih =>
    rw [List.foldl_cons, ih, notifyAdmin_sent]
    simp [List.flatMap, List.append_assoc]

theorem notifyRoster_frame (order : Order) (roster : List Int) (w : World) :
    (roster.foldl (notifyAdmin order) w).orders = w.orders ∧
    (roster.foldl (notifyAdmin order) w).userStates = w.userStates := by
  induction roster generalizing w with
  | nil => simp
  | cons a rest ih =>
    rw [List.foldl_cons]
    exact ⟨(ih _).1.trans (notifyAdmin_orders order w a),
      (ih _).2.trans (notifyAdmin_userStates order w a)⟩

theorem last_is_largest (vs : List PhotoSize) (hne : vs ≠ [])
    (hs : vs.Pairwise (fun a b => resolution a ≤ resolution b)) :
    ∀ v ∈ vs, resolution v ≤ resolution (vs.getLast hne) := by
  induction vs with
  | nil => exact absurd rfl hne
  | cons a tl ih =>
    intro v hv
    cases tl with
    | nil =>
      simp only [List.mem_singleton] at hv
      subst hv
      simp
    | cons b tl2 =>
      rw [List.getLast_cons (List.cons_ne_nil b tl2)]
      rcases List.mem_cons.mp hv with rfl | hv
      · exact (List.pairwise_cons.mp hs).1 _ (List.getLast_mem _)
      · exact ih (List.cons_ne_nil b tl2) (List.pairwise_cons.mp hs).2 v hv

/-! ## C14: the fan-out -/

/-- Claim C14: for every order and every roster, the fan-out appends to the
outbound log, for each administrator of the roster in turn and for nobody
else, one summary message (display name, handle, article, size, colour, city,
delivery, contact) with the send-price/reject keyboard whose payloads carry
the owner's id, followed at once by one photo message to the same
administrator exactly when the photo reference is not empty; store and
registry are untouched. The contact step runs this fan-out on the stored
record for the roster `adminIDs`, right after the acknowledgement. -/
theorem fan_out_to_roster (order : Order) (w : World) :
    (∀ roster : List Int,
      (roster.foldl (notifyAdmin order) w).sent = w.sent ++ roster.flatMap (fanOutTo order) ∧
      (roster.foldl (notifyAdmin order) w).orders = w.orders ∧
      (roster.foldl (notifyAdmin order) w).userStates = w.userStates) ∧
    (notifyAdmins w order).sent = w.sent ++ adminIDs.flatMap (fanOutTo order) ∧
    (∀ (c : Int) (st : UserState) (m : Message),
      w.userStates c = some st → st.Step = "contact" → PlainText c m →
      ∃ w1, dispatch w (msgUpdate m) = .ok w1 ∧
        w1.sent = w.sent ++ .message c thanksText none ::
          adminIDs.flatMap (fanOutTo (stampOrder st.Order c m))) ∧
    (∀ a : Int, fanOutTo order a =
      if order.PhotoFileID = "" then
        [.message a (fanOutSummary order) (some (adminActionKeyboard order.UserID))]
      else
        [.message a (fanOutSummary order) (some (adminActionKeyboard order.UserID)),
         .photo a order.PhotoFileID]) ∧
    (adminActionKeyboard order.UserID).map (fun row => row.map (fun b => b.CallbackData)) =
      [[some ("admin_price:" ++ fmtInt order.UserID),
        some ("admin_reject:" ++ fmtInt order.UserID)]] := by
  refine ⟨fun roster => ⟨notifyRoster_sent order roster w, notifyRoster_frame order roster w⟩,
    notifyRoster_sent order adminIDs w, ?_, ?_, rfl⟩
  · intro c st m hst hstep hm
    refine ⟨stepMessage w c st m, dispatch_msg_plain w c st m hst hm, ?_⟩
    simp [stepMessage, hstep, notifyAdmins, notifyRoster_sent, saveOrder, World.send,
      thanksText]
  intro a
  unfold fanOutTo
  by_cases hp : order.PhotoFileID = "" <;> simp [hp]

/-- Witness for C14: customer 42 at the contact step, with a photo reference
in the draft, sends the contact text. -/
theorem fan_out_to_roster_witness :
    ∃ w1, dispatch (worldWith [] 42 { Step := "contact", Order := { PhotoFileID := "F1" } })
        (msgUpdate (textOf ivan "@ivan")) = .ok w1 ∧
      w1.sent = [] ++ .message 42 thanksText none ::
        adminIDs.flatMap (fanOutTo (stampOrder { PhotoFileID := "F1" } 42 (textOf ivan "@ivan"))) :=
  (fan_out_to_roster {} (worldWith [] 42 { Step := "contact", Order := { PhotoFileID := "F1" } })).2.2.1
    42 { Step := "contact", Order := { PhotoFileID := "F1" } } (textOf ivan "@ivan") rfl rfl
    ⟨rfl, by decide, by decide, rfl⟩

/-! ## C15: the store is append-only -/

/-- Claim C15: whatever the registry, the store and the update, the store
after the update is the old records at their old positions, each with the
owner and every dialogue field unchanged (status and admin message may
differ), followed by at most one new record. -/
theorem store_append_only (w w1 : World) (u : Update) (h : dispatch w u = .ok w1) :
    ∃ olds extra, w1.orders = olds ++ extra ∧ extra.length ≤ 1 ∧
      olds.length = w.orders.length ∧
      List.Forall₂ SameDialogueFields w.orders olds := by
  rcases dispatch_orders w w1 u h with ho | ⟨d, c, m, ho⟩ | ⟨c, st, x, s, _, _, ho⟩
  · exact ⟨w.orders, [], by simp [ho], by simp, rfl, sameDialogueFields_refl _⟩
  · exact ⟨w.orders, [_], ho, by simp, rfl, sameDialogueFields_refl _⟩
  · refine ⟨w.orders.map (updateOne x s ""), [], ?_, by simp, by simp, sameDialogueFields_map _ _ _ _⟩
    rw [ho, updateOrders_eq_map]; simp

/-- Witness for C15: customer 42 submits an order while the store holds the
order of owner 7. -/
theorem store_append_only_witness :
    ∃ olds extra,
      (stepMessage (worldWith [order7] 42 { Step := "contact" }) 42 { Step := "contact" }
        (textOf ivan "@ivan")).orders = olds ++ extra ∧
      extra.length ≤ 1 ∧ olds.length = [order7].length ∧
      List.Forall₂ SameDialogueFields [order7] olds :=
  store_append_only (worldWith [order7] 42 { Step := "contact" }) _
    (msgUpdate (textOf ivan "@ivan")) rfl

/-! ## C16: which variant is recorded -/

/-- Claim C16 (amended): the photo reference recorded for a consumed photo
message is the file id of the last variant listed; it is a variant of largest
resolution when the variants are listed in non-decreasing resolution. -/
theorem photo_reference_is_last_variant (w : World) (c : Int) (st : UserState) (pm : Message)
    (vs : List PhotoSize) (hne : vs ≠ [])
    (hst : w.userStates c = some st) (hflag : st.WaitingPhoto = true)
    (hpc : pm.ChatID = c) (hc1 : pm.Command ≠ some "start") (hc2 : pm.Command ≠ some "myorders")
    (hph : pm.Photo = some vs) :
    ∃ w1 st1, dispatch w (msgUpdate pm) = .ok w1 ∧ w1.userStates c = some st1 ∧
      st1.Order.PhotoFileID = (vs.getLast hne).FileID ∧
      (vs.Pairwise (fun a b => resolution a ≤ resolution b) →
        ∀ v ∈ vs, resolution v ≤ resolution (vs.getLast hne)) :=
  ⟨_, withPhoto st (vs.getLast hne).FileID,
    dispatch_photo w c st pm vs hne hst hflag hpc hc1 hc2 hph, by simp, rfl,
    fun hs => last_is_largest vs hne hs⟩

/-- Witness for C16 (amended): variants listed smallest first. -/
theorem photo_reference_is_last_variant_witness :
    ∃ w1 st1, dispatch (worldWith [] 42 awaitingPhoto) (msgUpdate (photoAscending ivan)) = .ok w1 ∧
      w1.userStates 42 = some st1 ∧ st1.Order.PhotoFileID = "FB" ∧
      (List.Pairwise (fun a b => resolution a ≤ resolution b)
          [{ FileID := "FS", Width := 90, Height := 90 },
           { FileID := "FB", Width := 800, Height := 800 }] →
        ∀ v ∈ [({ FileID := "FS", Width := 90, Height := 90 } : PhotoSize),
            { FileID := "FB", Width := 800, Height := 800 }],
          resolution v ≤ resolution { FileID := "FB", Width := 800, Height := 800 }) :=
  photo_reference_is_last_variant (worldWith [] 42 awaitingPhoto) 42 awaitingPhoto
    (photoAscending ivan) _ (by decide) rfl rfl rfl (by decide) (by decide) rfl

/-- Counterexample to C16 as stated: with the variants listed largest first,
the recorded reference is the file id of the 90x90 variant, not of the
800x800 one. -/
theorem photo_reference_not_largest :
    ∃ w1, dispatch (worldWith [] 42 awaitingPhoto)
        (msgUpdate (photoDescending ivan)) = .ok w1 ∧
      (w1.userStates 42).map (fun s => s.Order.PhotoFileID) = some "FS" ∧
      resolution { FileID := "FS", Width := 90, Height := 90 } <
        resolution { FileID := "FB", Width := 800, Height := 800 } :=
  ⟨_, rfl, rfl, by decide⟩

/-! ## C17: the waiting flag -/

/-- Supporting fact for C17: in every world reached from an empty registry by
a sequence of updates, an entry at the step `wait_photo_upload` has the
waiting flag set; the photo branch of `handleMessage` looks at the flag only,
so it consumes a photo message whenever the flag is set, and with the flag
unset no message changes the photo reference of the draft. -/
theorem photo_gate_follows_flag (orders : List Order) (us : List Update) (w : World)
    (h : runUpdates (initWorld orders) us = .ok w) :
    (∀ (k : Int) (st : UserState), w.userStates k = some st →
      st.Step = "wait_photo_upload" → st.WaitingPhoto = true) ∧
    (∀ (c : Int) (st : UserState) (pm : Message) (vs : List PhotoSize) (hne : vs ≠ []),
      w.userStates c = some st → st.WaitingPhoto = true → pm.ChatID = c →
      pm.Command ≠ some "start" → pm.Command ≠ some "myorders" → pm.Photo = some vs →
      ∃ w1, dispatch w (msgUpdate pm) = .ok w1 ∧
        w1.userStates c = some (withPhoto st (vs.getLast hne).FileID)) ∧
    (∀ (c : Int) (st st1 : UserState) (pm : Message) (w1 : World),
      w.userStates c = some st → st.WaitingPhoto = false → pm.ChatID = c →
      dispatch w (msgUpdate pm) = .ok w1 → w1.userStates c = some st1 →
      st1.Order.PhotoFileID = st.Order.PhotoFileID) := by
  refine ⟨?_, ?_, ?_⟩
  · intro k st hk
    exact (runUpdates_good us _ w (initWorld_good orders) h k st hk).2
  · intro c st pm vs hne hst hflag hc hc1 hc2 hph
    exact ⟨_, dispatch_photo w c st pm vs hne hst hflag hc hc1 hc2 hph, by simp⟩
  · intro c st st1 pm w1 hst hflag hc hd h1
    exact dispatch_photo_kept w w1 c st st1 pm hst hflag hc hd h1

/-- Claim C17, evaluated at a failing input: after the yes choice and
`/start`, customer 42 is at the step `menu` with the waiting flag set; a photo
message sent there is consumed as the order photo and moves the actor to
`contact`, and the text that follows submits the abandoned draft as an
order. -/
theorem flag_survives_start :
    ∃ w0 w1 w2, runUpdates (initWorld []) (flagLeftSet ivan) = .ok w0 ∧
      (w0.userStates 42).map (fun s => (s.Step, s.WaitingPhoto)) = some ("menu", true) ∧
      dispatch w0 (msgUpdate (photoAscending ivan)) = .ok w1 ∧
      (w1.userStates 42).map (fun s => (s.Step, s.Order.PhotoFileID)) = some ("contact", "FB") ∧
      dispatch w1 (msgUpdate (textOf ivan "hello")) = .ok w2 ∧
      w2.orders.map (fun o => (o.Article, o.PhotoFileID, o.Contact)) =
        [("XY999", "FB", "hello")] :=
  ⟨_, _, _, rfl, rfl, rfl, rfl, rfl, rfl⟩

/-- The supporting fact for C17 at the world reached by customer 42 up to the
yes choice. -/
theorem photo_gate_follows_flag_witness :
    ∃ w, runUpdates (initWorld []) (dialogueToUpload ivan) = .ok w ∧
      (∀ (k : Int) (st : UserState), w.userStates k = some st →
        st.Step = "wait_photo_upload" → st.WaitingPhoto = true) ∧
      (∀ (c : Int) (st : UserState) (pm : Message) (vs : List PhotoSize) (hne : vs ≠ []),
        w.userStates c = some st → st.WaitingPhoto = true → pm.ChatID = c →
        pm.Command ≠ some "start" → pm.Command ≠ some "myorders" → pm.Photo = some vs →
        ∃ w1, dispatch w (msgUpdate pm) = .ok w1 ∧
          w1.userStates c = some (withPhoto st (vs.getLast hne).FileID)) ∧
      (∀ (c : Int) (st st1 : UserState) (pm : Message) (w1 : World),
        w.userStates c = some st → st.WaitingPhoto = false → pm.ChatID = c →
        dispatch w (msgUpdate pm) = .ok w1 → w1.userStates c = some st1 →
        st1.Order.PhotoFileID = st.Order.PhotoFileID) :=
  ⟨_, rfl, photo_gate_follows_flag [] (dialogueToUpload ivan) _ rfl⟩

/-! ## C18: the administrator steps -/

/-- Claim C18: in every world reached from an empty registry by a sequence of
updates, no registry entry is at the step `admin_action`, `user_confirm`,
`send_price` or `await_admin_price`, so the two cases of `handleCallback` that
call `updateOrderStatus` are never entered; the store is the initial store
followed by the records appended during the run, all of them still
`pending`. -/
theorem admin_steps_unreachable (orders : List Order) (us : List Update) (w : World)
    (h : runUpdates (initWorld orders) us = .ok w) :
    (∀ (k : Int) (st : UserState), w.userStates k = some st →
      st.Step ≠ "admin_action" ∧ st.Step ≠ "user_confirm" ∧ st.Step ≠ "send_price" ∧
      st.Step ≠ "await_admin_price") ∧
    ∃ added, w.orders = orders ++ added ∧ ∀ o ∈ added, o.Status = "pending" := by
  have hg := runUpdates_good us _ w (initWorld_good orders) h
  refine ⟨?_, runUpdates_orders_good us _ w (initWorld_good orders) h⟩
  intro k st hk
  have hmem := (hg k st hk).1
  refine ⟨?_, ?_, ?_, ?_⟩ <;> intro hs <;> rw [hs] at hmem <;> simp [customerSteps] at hmem

/-- Witness for C18: the scenario's dialogue run from an empty registry over
a store that holds the order of owner 7. -/
theorem admin_steps_unreachable_witness :
    ∃ w, runUpdates (initWorld [order7])
        (msgUpdate (commandOf ivan "start") :: orderDialogue ivan) = .ok w ∧
      (∀ (k : Int) (st : UserState), w.userStates k = some st →
        st.Step ≠ "admin_action" ∧ st.Step ≠ "user_confirm" ∧ st.Step ≠ "send_price" ∧
        st.Step ≠ "await_admin_price") ∧
      ∃ added, w.orders = [order7] ++ added ∧ ∀ o ∈ added, o.Status = "pending" :=
  ⟨_, rfl, admin_steps_unreachable [order7]
    (msgUpdate (commandOf ivan "start") :: orderDialogue ivan) _ rfl⟩

/-! # Decimal rendering and parsing -/

theorem digitChar_isDigit (k : Nat) (hk : k < 10) :
    (Nat.digitChar k).isDigit = true ∧ (Nat.digitChar k).toNat - 48 = k := by
  interval_cases k <;> decide

theorem parseUintLoop_toDigitsCore (fuel n : Nat) (ds : List Char)
    (hf : n < fuel) (hn : n ≤ maxUint64) :
    parseUintLoop (Nat.toDigitsCore 10 fuel n ds) 0 = parseUintLoop ds n := by
  induction fuel generalizing n ds with
  | zero => omega
  | succ fuel ih =>
    have hd := digitChar_isDigit (n % 10) (Nat.mod_lt _ (by decide))
    have hmax : maxUint64 = 18446744073709551615 := by decide
    unfold Nat.toDigitsCore
    simp only
    split
    · rename_i h0
      have hlt : n < 10 := by omega
      have hmod : n % 10 = n := Nat.mod_eq_of_lt hlt
      rw [hmod] at hd ⊢
      simp only [parseUintLoop, hd.1, hd.2, if_true]
      rw [if_neg (by omega), if_neg (by omega)]
      simp
    · rename_i h0
      rw [ih (n / 10) _ (by omega) (by omega)]
      simp only [parseUintLoop, hd.1, hd.2, if_true]
      rw [if_neg (by omega), if_neg (by omega)]
      congr 1
      omega

theorem toDigitsCore_ne_nil (fuel n : Nat) (ds : List Char) (h : ds ≠ [] ∨ fuel ≠ 0) :
    Nat.toDigitsCore 10 fuel n ds ≠ [] := by
  induction fuel generalizing n ds with
  | zero =>
    rcases h with h | h
    · simpa [Nat.toDigitsCore] using h
    · exact absurd rfl h
  | succ fuel ih =>
    unfold Nat.toDigitsCore
    simp only
    split
    · simp
    · exact ih _ _ (Or.inl (by simp))

theorem parseUint_toDigits (n : Nat) (hn : n ≤ maxUint64) :
    parseUint (Nat.toDigits 10 n) = .ok n := by
  have hne : Nat.toDigits 10 n ≠ [] := toDigitsCore_ne_nil (n + 1) n [] (Or.inr (by omega))
  have hl : parseUintLoop (Nat.toDigits 10 n) 0 = .ok n := by
    unfold Nat.toDigits
    rw [parseUintLoop_toDigitsCore (n + 1) n [] (by omega) hn]
    rfl
  unfold parseUint
  split
  · rename_i heq
    exact absurd heq hne
  · exact hl

theorem toDigits_head_isDigit (n : Nat) (hn : n ≤ maxUint64) :
    ∃ c cs, Nat.toDigits 10 n = c :: cs ∧ c.isDigit = true := by
  have hp := parseUint_toDigits n hn
  cases hds : Nat.toDigits 10 n with
  | nil => rw [hds] at hp; simp [parseUint] at hp
  | cons c cs =>
    refine ⟨c, cs, rfl, ?_⟩
    rw [hds] at hp
    by_contra hc
    simp [parseUint, parseUintLoop, hc] at hp

theorem parseInt_fmtInt (u : Int) (hlo : -(2 ^ 63 : Int) ≤ u) (hhi : u < (2 ^ 63 : Int)) :
    parseInt (fmtInt u) = u := by
  have hmax : maxUint64 = 18446744073709551615 := by decide
  have hn : u.natAbs ≤ maxUint64 := by omega
  obtain ⟨c, cs, hds, hc⟩ := toDigits_head_isDigit u.natAbs hn
  have hp := parseUint_toDigits u.natAbs hn
  unfold fmtInt
  split
  · rename_i hneg
    have hdata : ("-" ++ Nat.repr u.natAbs).data = '-' :: Nat.toDigits 10 u.natAbs := by
      simp [Nat.repr, List.asString]
    unfold parseInt
    rw [hdata]
    simp only [true_or, or_true, if_true, hp]
    simp only [not_true_eq_false, false_and, true_and, if_false]
    split_ifs <;> omega
  · rename_i hneg
    have hdata : (Nat.repr u.natAbs).data = c :: cs := by
      simp [Nat.repr, List.asString, hds]
    have hplus : c ≠ '+' := by
      intro h; rw [h] at hc; exact absurd hc (by decide)
    have hminus : c ≠ '-' := by
      intro h; rw [h] at hc; exact absurd hc (by decide)
    unfold parseInt
    rw [hdata]
    simp only [hplus, hminus, or_self, if_false, ← hds, hp]
    split_ifs <;> omega

theorem hasPrefix_append (p s : String) : hasPrefix (p ++ s) p = true := by
  simp [hasPrefix, List.isPrefixOf_iff_prefix]

theorem trimPrefix_append (p s : String) : trimPrefix (p ++ s) p = s := by
  simp [trimPrefix, hasPrefix_append]

theorem reject_not_price (s : String) : hasPrefix ("admin_reject:" ++ s) "admin_price:" = false := by
  simp [hasPrefix, List.isPrefixOf]

theorem price_not_reject (s : String) : hasPrefix ("admin_price:" ++ s) "admin_reject:" = false := by
  simp [hasPrefix, List.isPrefixOf]

/-! ## C19: the administrator payloads -/

/-- Claim C19: for every owner id `u` in the range of `int64`, the two
payloads that `adminActionKeyboard u` puts on its buttons pass the prefix test
of their own branch of `handleCallback`, the strip and the base-10 parse give
back `u`, and neither payload passes the prefix test of the other branch; at
the step `admin_action` the price payload registers `send_price` for owner
`u` and the reject payload runs `updateOrderStatus` for owner `u`. -/
theorem admin_payload_roundtrip (u : Int) (hlo : -(2 ^ 63 : Int) ≤ u) (hhi : u < (2 ^ 63 : Int)) :
    (adminActionKeyboard u).map (fun row => row.map (fun b => b.CallbackData)) =
      [[some ("admin_price:" ++ fmtInt u), some ("admin_reject:" ++ fmtInt u)]] ∧
    hasPrefix ("admin_price:" ++ fmtInt u) "admin_price:" = true ∧
    parseInt (trimPrefix ("admin_price:" ++ fmtInt u) "admin_price:") = u ∧
    hasPrefix ("admin_reject:" ++ fmtInt u) "admin_price:" = false ∧
    hasPrefix ("admin_reject:" ++ fmtInt u) "admin_reject:" = true ∧
    parseInt (trimPrefix ("admin_reject:" ++ fmtInt u) "admin_reject:") = u ∧
    hasPrefix ("admin_price:" ++ fmtInt u) "admin_reject:" = false ∧
    (∀ (w : World) (cb : CallbackQuery) (st : UserState),
      w.userStates cb.Message.ChatID = some st → st.Step = "admin_action" →
      (cb.Data = "admin_price:" ++ fmtInt u →
        ∃ w1, handleCallback w cb = .ok w1 ∧
          w1.userStates cb.From.ID = some { Step := "send_price", Order := { UserID := u } } ∧
          w1.orders = w.orders) ∧
      (cb.Data = "admin_reject:" ++ fmtInt u →
        handleCallback w cb = .ok ((updateOrderStatus w u "rejected" "").send
          (.message u "❌ Ваш заказ отклонён администратором." none)))) := by
  have hrt := parseInt_fmtInt u hlo hhi
  refine ⟨rfl, hasPrefix_append _ _, by rw [trimPrefix_append, hrt], reject_not_price _,
    hasPrefix_append _ _, by rw [trimPrefix_append, hrt], price_not_reject _, ?_⟩
  intro w cb st hst hstep
  constructor
  · intro hd
    have e : handleCallback w cb = .ok (((w.setState u (some { Step := "await_admin_price" })).send
        (.message cb.From.ID "Введите сообщение для пользователя (цена, сроки, оплата):"
          none)).setState cb.From.ID (some { Step := "send_price", Order := { UserID := u } })) := by
      simp only [handleCallback, hst, hstep, hd, hasPrefix_append, if_true, trimPrefix_append, hrt]
    exact ⟨_, e, by simp, by simp⟩
  · intro hd
    simp only [handleCallback, hst, hstep, hd, hasPrefix_append, if_true, trimPrefix_append, hrt,
      reject_not_price]
    simp

/-- Witness for C19: a negative owner id and the least `int64`. -/
theorem admin_payload_roundtrip_witness :
    parseInt (trimPrefix ("admin_price:" ++ fmtInt (-1001234567890)) "admin_price:") =
      -1001234567890 ∧
    parseInt (trimPrefix ("admin_reject:" ++ fmtInt (-(2 ^ 63))) "admin_reject:") = -(2 ^ 63) :=
  ⟨(admin_payload_roundtrip (-1001234567890) (by decide) (by decide)).2.2.1,
   (admin_payload_roundtrip (-(2 ^ 63)) (by decide) (by decide)).2.2.2.2.2.1⟩

/-! ## C7 (amended): the status diagram away from `user_confirm` -/

theorem handleCallback_orders_step (w w1 : World) (cb : CallbackQuery)
    (h : handleCallback w cb = .ok w1) :
    w1.orders = w.orders ∨
    (∃ x, w1.orders = updateOrders w.orders x "rejected" "") ∨
    (∃ st, w.userStates cb.Message.ChatID = some st ∧ st.Step = "user_confirm") := by
  rcases handleCallback_orders w w1 cb h with ho | ⟨st, x, s, hst, hstep, _⟩
  · left; exact ho
  · rcases hstep with hs | hs
    · simp only [handleCallback, hst, hs] at h
      split_ifs at h
      · simp only [Except.ok.injEq] at h; subst h; left; simp
      · simp only [Except.ok.injEq] at h; subst h; right; left; exact ⟨_, rfl⟩
      · simp only [Except.ok.injEq] at h; subst h; left; rfl
    · right; right; exact ⟨st, hst, hs⟩

theorem dispatch_orders_step (w w1 : World) (u : Update) (h : dispatch w u = .ok w1) :
    w1.orders = w.orders ∨
    (∃ o, w1.orders = w.orders ++ [o]) ∨
    (∃ x, w1.orders = updateOrders w.orders x "rejected" "") ∨
    (∃ cb st, u.Message = none ∧ u.CallbackQuery = some cb ∧
      w.userStates cb.Message.ChatID = some st ∧ st.Step = "user_confirm") := by
  rcases dispatch_orders w w1 u h with ho | ⟨d, c, m, ho⟩ | _
  · left; exact ho
  · right; left; exact ⟨_, ho⟩
  · unfold dispatch at h
    split at h
    · simp only at h
      rename_i message _
      cases hreg : w.userStates message.ChatID with
      | none =>
        simp only [hreg] at h
        rcases handleMessage_orders _ _ _ h with ho | ⟨st, _, _, ho⟩
        · left; rw [ho]; rfl
        · right; left; exact ⟨_, by rw [ho]; rfl⟩
      | some st0 =>
        simp only [hreg] at h
        rcases handleMessage_orders _ _ _ h with ho | ⟨st, _, _, ho⟩
        · left; exact ho
        · right; left; exact ⟨_, ho⟩
    · rename_i hmsg
      split at h
      · rename_i cb hcb
        rcases handleCallback_orders_step w w1 cb h with ho | ⟨x, ho⟩ | ⟨st, hst, hs⟩
        · left; exact ho
        · right; right; left; exact ⟨x, ho⟩
        · right; right; right; exact ⟨cb, st, hmsg, hcb, hst, hs⟩
      · simp only [Except.ok.injEq] at h; subst h; left; rfl

theorem updateOne_rejected (x : Int) (o : Order) :
    updateOne x "rejected" "" o = o ∨
    (o.Status = "pending" ∧ (updateOne x "rejected" "" o).Status = "rejected") := by
  by_cases hm : o.UserID = x ∧ o.Status = "pending"
  · right; exact ⟨hm.2, by simp [updateOne, markOrder, hm]⟩
  · left; exact updateOne_other x _ _ o hm

/-- Claim C7 (amended): for every registry and store and every update that
is not a press by an actor at the step `user_confirm`, each stored record
whose status differs before and after the update changed along an edge of
the diagram; no record leaves `rejected`, `confirmed` or `declined`, none
returns to `pending`, and a confirm or decline press changes nothing in the
store. Nothing is stated about a press at the step `user_confirm`. -/
theorem status_changes_follow_diagram (w w1 : World) (u : Update)
    (hstep : ∀ (cb : CallbackQuery) (st : UserState), u.CallbackQuery = some cb →
      w.userStates cb.Message.ChatID = some st → st.Step ≠ "user_confirm")
    (h : dispatch w u = .ok w1) :
    (∀ (i : Nat) (o : Order), w.orders[i]? = some o →
      ∃ o1, w1.orders[i]? = some o1 ∧
        (o1.Status ≠ o.Status → StatusEdge o.Status o1.Status) ∧
        (o.Status = "rejected" ∨ o.Status = "confirmed" ∨ o.Status = "declined" →
          o1.Status = o.Status) ∧
        (o1.Status = "pending" → o.Status = "pending")) ∧
    (∀ cb : CallbackQuery, u = pressUpdate cb →
      cb.Data = "user_accept" ∨ cb.Data = "user_decline" → w1.orders = w.orders) := by
  constructor
  · intro i o hi
    rcases dispatch_orders_step w w1 u h with ho | ⟨n, ho⟩ | ⟨x, ho⟩ | ⟨cb, st, _, hcb, hst, hs⟩
    · exact ⟨o, by rw [ho]; exact hi, fun hne => absurd rfl hne, fun _ => rfl, fun hp => hp⟩
    · refine ⟨o, ?_, fun hne => absurd rfl hne, fun _ => rfl, fun hp => hp⟩
      rw [ho, List.getElem?_append_left (List.getElem?_eq_some_iff.mp hi).1]
      exact hi
    · refine ⟨updateOne x "rejected" "" o, ?_, ?_, ?_, ?_⟩
      · rw [ho, updateOrders_eq_map, List.getElem?_map, hi]; rfl
      · intro hne
        rcases updateOne_rejected x o with he | ⟨hp, hr⟩
        · rw [he] at hne; exact absurd rfl hne
        · right; left; exact ⟨hp, hr⟩
      · intro hterm
        rcases updateOne_rejected x o with he | ⟨hp, _⟩
        · rw [he]
        · rw [hp] at hterm; simp at hterm
      · intro hpend
        rcases updateOne_rejected x o with he | ⟨hp, hr⟩
        · rw [he] at hpend; exact hpend
        · exact hp
    · exact absurd hs (hstep cb st hcb hst)
  · intro cb hu hd
    subst hu
    rw [dispatch_press] at h
    have hno : ∀ st, w.userStates cb.Message.ChatID = some st → st.Step ≠ "user_confirm" :=
      fun st hst => hstep cb st rfl hst
    rcases handleCallback_orders_step w w1 cb h with ho | ⟨x, ho⟩ | ⟨st, hst, hs⟩
    · exact ho
    · rcases handleCallback_orders w w1 cb h with ho2 | ⟨st, y, s, hst, hs, _⟩
      · exact ho2
      · rcases hs with hs | hs
        · simp only [handleCallback, hst, hs] at h
          have hp1 : hasPrefix cb.Data "admin_price:" = false := by
            rcases hd with hd | hd <;> rw [hd] <;> decide
          have hp2 : hasPrefix cb.Data "admin_reject:" = false := by
            rcases hd with hd | hd <;> rw [hd] <;> decide
          simp only [hp1, hp2, Bool.false_eq_true, if_false, Except.ok.injEq] at h
          subst h; rfl
        · exact absurd hs (hno st hst)
    · exact absurd hs (hno st hst)

/-- Witness for C7 (amended): an administrator at the step `admin_action`
presses reject for owner 42, whose order is `pending`. -/
theorem status_changes_follow_diagram_witness :
    ∃ w1, dispatch (worldWith [pendingOrder42] admin.ID { Step := "admin_action" })
        (pressUpdate (pressOf admin "admin_reject:42")) = .ok w1 ∧
      ∃ o1, w1.orders[0]? = some o1 ∧
        (o1.Status ≠ pendingOrder42.Status → StatusEdge pendingOrder42.Status o1.Status) ∧
        (pendingOrder42.Status = "rejected" ∨ pendingOrder42.Status = "confirmed" ∨
          pendingOrder42.Status = "declined" → o1.Status = pendingOrder42.Status) ∧
        (o1.Status = "pending" → pendingOrder42.Status = "pending") :=
  ⟨_, rfl, (status_changes_follow_diagram
    (worldWith [pendingOrder42] admin.ID { Step := "admin_action" }) _
    (pressUpdate (pressOf admin "admin_reject:42"))
    (by
      intro cb st hcb hst
      cases hcb
      have hs : st = { Step := "admin_action" } := by
        simpa [worldWith, initWorld, World.setState, pressOf, admin] using hst.symm
      rw [hs]
      decide)
    rfl).1 0 pendingOrder42 rfl⟩

end Poizon
